import Mathlib

/-! # DNS wire codec (package rfc) : a shallow embedding

Octets are natural numbers below 256; every place where the Go code computes in
uint8 carries an explicit reduction modulo 256.  A Go byte slice and a Go string are
both modelled as a list of octets.  A run-time fault of the Go program (index or slice
bound out of range) is the outcome fault; a returned non-nil error is the outcome
error; recursion deeper than the budget given to the model is the outcome
outOfFuel.
-/

namespace Rfc

/-! ## Outcomes of a call -/

/-- Result of running a Go function of the codec. -/
inductive Outcome (α : Type) where
  /-- normal return, the error result being nil -/
  | ok (val : α)
  /-- normal return with a non-nil error value -/
  | error (msg : String)
  /-- the Go run time aborts the call: index or slice bounds out of range -/
  | fault
  /-- the budget of loop iterations and recursive calls is used up -/
  | outOfFuel
  deriving DecidableEq, Repr

/-- Sequencing of two calls: the second runs only when the first returned normally. -/
def Outcome.bind {α β : Type} (x : Outcome α) (f : α → Outcome β) : Outcome β :=
  match x with
  | .ok a => f a
  | .error e => .error e
  | .fault => .fault
  | .outOfFuel => .outOfFuel

/-! ## Constants of rfc.go -/

def RCodeNoError : Nat := 0
def RCodeFormatError : Nat := 1
def RCodeServerFailure : Nat := 2
def RCodeNameError : Nat := 3
def RCodeNotImplemented : Nat := 4
def RCodeRefused : Nat := 5

def TypeA : Nat := 1
def TypeNS : Nat := 2
def TypeCNAME : Nat := 5
def TypeSOA : Nat := 6
def TypePTR : Nat := 12
def TypeMX : Nat := 15
def TypeTXT : Nat := 16
def TypeAAAA : Nat := 28

def ClassIN : Nat := 1

def QTypeA : Nat := 1
def QClassIN : Nat := 1

def headerSizeBytes : Nat := (8 * 2 * 6) / 8

/-! ## Data model -/

/-- QuestionEntry of rfc.go; QName is a Go string, kept as its octets. -/
structure QuestionEntry where
  QName : List Nat
  QType : Nat
  QClass : Nat
  deriving DecidableEq, Repr

/-- The RData payload (a fmt.Stringer in Go).  For A and AAAA the Go code stores the
text that net.IPAddr.String prints for the address octets; the embedding keeps the
address octets themselves.  The constructor none is the nil interface value left by
the switch for a type it has no case for. -/
inductive RData where
  | none
  | A (address : List Nat)
  | AAAA (address : List Nat)
  | CNAME (CName : List Nat)
  | MX (Preference : Nat) (Exchange : List Nat)
  | NS (NsdName : List Nat)
  | TXT (TxtData : List Nat)
  deriving DecidableEq, Repr

/-- ResourceRecord of rfc.go. -/
structure ResourceRecord where
  Name : List Nat
  /-- the field Type of the Go struct (a reserved word here) -/
  RType : Nat
  Class : Nat
  TTL : Nat
  RDLength : Nat
  RData : RData
  deriving DecidableEq, Repr

/-- MessageHeader of rfc.go (the field Z is the empty struct and carries nothing). -/
structure MessageHeader where
  ID : Nat
  QR : Bool
  OPCode : Nat
  AA : Bool
  TC : Bool
  RD : Bool
  RA : Bool
  RCode : Nat
  QDCount : Nat
  ANCount : Nat
  NSCount : Nat
  ARCount : Nat
  deriving DecidableEq, Repr

/-- Message of rfc.go. -/
structure Message where
  Header : MessageHeader
  Question : List QuestionEntry
  Answer : List ResourceRecord
  Authority : List ResourceRecord
  Additional : List ResourceRecord
  deriving DecidableEq, Repr

/-! ## encoding/binary -/

/-- The function binary.BigEndian.Uint16 on the two octets b0 b1:
uint16(b[1]) | uint16(b[0])<<8. -/
def Uint16 (b0 b1 : Nat) : Nat := b1 ||| (b0 <<< 8)

/-- The function binary.BigEndian.Uint32 on four octets:
uint32(b[3]) | uint32(b[2])<<8 | uint32(b[1])<<16 | uint32(b[0])<<24. -/
def Uint32 (b0 b1 b2 b3 : Nat) : Nat := b3 ||| (b2 <<< 8) ||| (b1 <<< 16) ||| (b0 <<< 24)

/-- The pair of statements  v := binary.BigEndian.Uint16(b[0:2]); b = b[2:]. -/
def readUint16 (bytes : List Nat) : Outcome (Nat × List Nat) :=
  match bytes with
  | b0 :: b1 :: rest => .ok (Uint16 b0 b1, rest)
  | _ => .fault

/-- The pair of statements  v := binary.BigEndian.Uint32(b[0:4]); b = b[4:]. -/
def readUint32 (bytes : List Nat) : Outcome (Nat × List Nat) :=
  match bytes with
  | b0 :: b1 :: b2 :: b3 :: rest => .ok (Uint32 b0 b1 b2 b3, rest)
  | _ => .fault

/-- The pair of statements  v := b[0:n]; b = b[n:]  (the second one faults when n
exceeds the length of b). -/
def readBytes (n : Nat) (bytes : List Nat) : Outcome (List Nat × List Nat) :=
  if n > bytes.length then .fault else .ok (bytes.take n, bytes.drop n)

/-! ## parseDomainName -/

/-- The uint8 expression  (bytes[0] << 2) + bytes[1]  of parseDomainName. -/
def pointerOffset (b0 b1 : Nat) : Nat := ((b0 <<< 2) % 256 + b1) % 256

/-- The test  length&0b1100_0000 > 0  of parseDomainName. -/
def isCompressed (length : Nat) : Bool := decide (length &&& 0b11000000 > 0)

/-- The loop of parseDomainName, with the local variable domainName as last argument.
One unit of fuel is spent per loop iteration; the recursive call for a pointer runs
on what is left. -/
def parseDomainNameLoop : Nat → List Nat → List Nat → List Nat → Outcome (List Nat × List Nat)
  | 0, _, _, _ => .outOfFuel
  | fuel + 1, fullMessage, bytes, domainName =>
    match bytes with
    | [] => .fault
    | length :: bytes1 =>
      if isCompressed length then
        match bytes1 with
        | [] => .fault
        | b1 :: bytes2 =>
          let pointer := pointerOffset length b1
          if pointer > fullMessage.length then .fault
          else
            match parseDomainNameLoop fuel fullMessage (fullMessage.drop pointer) [] with
            | .ok (resolvedPointer, _) => .ok (domainName ++ resolvedPointer, bytes2)
            | .error e => .error e
            | .fault => .fault
            | .outOfFuel => .outOfFuel
      else if length = 0 then .ok (domainName, bytes1)
      else if length > bytes1.length then .fault
      else
        parseDomainNameLoop fuel fullMessage (bytes1.drop length)
          (domainName ++ bytes1.take length ++ [46])

/-- The function parseDomainName of rfc.go. -/
def parseDomainName (fuel : Nat) (fullMessage bytes : List Nat) : Outcome (List Nat × List Nat) :=
  parseDomainNameLoop fuel fullMessage bytes []

/-! ## parseResourceRecords -/

/-- The switch on the record type in the loop body of parseResourceRecords: returns
the RData and the value of messageBytes after the switch. -/
def parseRData (fuel : Nat) (fullMessage messageBytes : List Nat) (type rdLength : Nat) :
    Outcome (RData × List Nat) :=
  if type = TypeA then
    (readBytes 4 messageBytes).bind fun (ip, messageBytes) => .ok (.A ip, messageBytes)
  else if type = TypeAAAA then
    (readBytes 16 messageBytes).bind fun (ip, messageBytes) => .ok (.AAAA ip, messageBytes)
  else if type = TypeCNAME then
    (parseDomainName fuel fullMessage messageBytes).bind fun (canonicalDomainName, messageBytes) =>
      .ok (.CNAME canonicalDomainName, messageBytes)
  else if type = TypeMX then
    (readBytes rdLength messageBytes).bind fun (rDataStr, _) =>
    (readUint16 rDataStr).bind fun (preference, rDataTail) =>
    (parseDomainName fuel fullMessage rDataTail).bind fun (exchangeDomainName, messageBytes) =>
      .ok (.MX preference exchangeDomainName, messageBytes)
  else if type = TypeNS then
    (readBytes rdLength messageBytes).bind fun (rDataStr, _) =>
    (parseDomainName fuel fullMessage rDataStr).bind fun (nsDomainName, messageBytes) =>
      .ok (.NS nsDomainName, messageBytes)
  else if type = TypeTXT then
    (readBytes rdLength messageBytes).bind fun (rDataStr, messageBytes) =>
      .ok (.TXT rDataStr, messageBytes)
  else .ok (.none, messageBytes)

/-- One iteration of the loop of parseResourceRecords: the record decoded at the
cursor and the cursor after it. -/
def parseResourceRecord (fuel : Nat) (fullMessage messageBytes : List Nat) :
    Outcome (ResourceRecord × List Nat) :=
  (parseDomainName fuel fullMessage messageBytes).bind fun (domainName, messageBytes) =>
  (readUint16 messageBytes).bind fun (type, messageBytes) =>
  (readUint16 messageBytes).bind fun (cls, messageBytes) =>
  (readUint32 messageBytes).bind fun (ttl, messageBytes) =>
  (readUint16 messageBytes).bind fun (rdLength, messageBytes) =>
  (parseRData fuel fullMessage messageBytes type rdLength).bind fun (rdata, messageBytes) =>
    .ok ({ Name := domainName, RType := type, Class := cls, TTL := ttl,
           RDLength := rdLength, RData := rdata }, messageBytes)

/-- The function parseResourceRecords of rfc.go: numRecords iterations of the loop. -/
def parseResourceRecords (fuel : Nat) (fullMessage : List Nat) :
    List Nat → Nat → Outcome (List ResourceRecord × List Nat)
  | messageBytes, 0 => .ok ([], messageBytes)
  | messageBytes, numRecords + 1 =>
    (parseResourceRecord fuel fullMessage messageBytes).bind fun (rr, messageBytes) =>
    (parseResourceRecords fuel fullMessage messageBytes numRecords).bind fun (rrs, messageBytes) =>
      .ok (rr :: rrs, messageBytes)

/-! ## parseQuestions -/

/-- One iteration of the loop of parseQuestions. -/
def parseQuestion (fuel : Nat) (fullMessage messageBytes : List Nat) :
    Outcome (QuestionEntry × List Nat) :=
  (parseDomainName fuel fullMessage messageBytes).bind fun (domainName, messageBytes) =>
  (readUint16 messageBytes).bind fun (qtype, messageBytes) =>
  (readUint16 messageBytes).bind fun (qclass, messageBytes) =>
    .ok ({ QName := domainName, QType := qtype, QClass := qclass }, messageBytes)

/-- The function parseQuestions of rfc.go. -/
def parseQuestions (fuel : Nat) (fullMessage : List Nat) :
    List Nat → Nat → Outcome (List QuestionEntry × List Nat)
  | messageBytes, 0 => .ok ([], messageBytes)
  | messageBytes, numQuestions + 1 =>
    (parseQuestion fuel fullMessage messageBytes).bind fun (q, messageBytes) =>
    (parseQuestions fuel fullMessage messageBytes numQuestions).bind fun (qs, messageBytes) =>
      .ok (q :: qs, messageBytes)

/-! ## parseMessageHeader and parseMessage -/

/-- The function parseMessageHeader of rfc.go.  The Go code shifts secondRow[0] in
place, and secondRow aliases the argument: the second component of the result is the
content of headerBytes after the call. -/
def parseMessageHeader (headerBytes : List Nat) : Outcome (MessageHeader × List Nat) :=
  match headerBytes with
  | [h0, h1, h2, h3, h4, h5, h6, h7, h8, h9, h10, h11] =>
    let id := Uint16 h0 h1
    let qr := decide (h2 &&& 0b10000000 > 0)
    let s0 := (h2 <<< 1) % 256
    let opcode := (s0 &&& 0b11110000) >>> 4
    let aa := decide (s0 &&& 0b00001000 > 0)
    let tc := decide (s0 &&& 0b00000100 > 0)
    let rd := decide (s0 &&& 0b00000010 > 0)
    let ra := decide (h3 &&& 0b10000000 > 0)
    let rcode := h3 &&& 0b00001111
    let qdcount := Uint16 h4 h5
    let ancount := Uint16 h6 h7
    let nscount := Uint16 h8 h9
    let arcount := Uint16 h10 h11
    .ok ({ ID := id, QR := qr, OPCode := opcode, AA := aa, TC := tc, RD := rd, RA := ra,
           RCode := rcode, QDCount := qdcount, ANCount := ancount, NSCount := nscount,
           ARCount := arcount },
         [h0, h1, s0, h3, h4, h5, h6, h7, h8, h9, h10, h11])
  | _ => .error "expected header to be 12 bytes"

/-- The function parseMessage of rfc.go.  Taking messageBytes[headerSizeBytes:] faults
on an input shorter than the header.  fullMessage shares its storage with the header
slice, so the sections are decoded against the buffer as parseMessageHeader left it. -/
def parseMessage (fuel : Nat) (messageBytes : List Nat) : Outcome Message :=
  if messageBytes.length < headerSizeBytes then .fault
  else
    match parseMessageHeader (messageBytes.take headerSizeBytes) with
    | .ok (header, headerBytes) =>
      let fullMessage := headerBytes ++ messageBytes.drop headerSizeBytes
      let messageBytes := messageBytes.drop headerSizeBytes
      (parseQuestions fuel fullMessage messageBytes header.QDCount).bind
        fun (questionEntries, messageBytes) =>
      (parseResourceRecords fuel fullMessage messageBytes header.ANCount).bind
        fun (answerRRs, messageBytes) =>
      (parseResourceRecords fuel fullMessage messageBytes header.NSCount).bind
        fun (authorityRRs, messageBytes) =>
      (parseResourceRecords fuel fullMessage messageBytes header.ARCount).bind
        fun (additionalRRs, _) =>
        .ok { Header := header, Question := questionEntries, Answer := answerRRs,
              Authority := authorityRRs, Additional := additionalRRs }
    | .error e => .error ("could not parse header: " ++ e)
    | .fault => .fault
    | .outOfFuel => .outOfFuel

/-! ## Test helpers of rfc_test.go -/

/-- The helper writeDomainName of rfc_test.go: the octets it appends to the buffer for
the name given as a Go string.  bytes.Split on the one-octet separator "." is
List.splitOn 46; byte(len(part)) is the length modulo 256. -/
def writeDomainName (name : List Nat) : List Nat :=
  ((name.splitOn 46).map fun part => (part.length % 256) :: part).flatten ++ [0]

/-- The helper writeCompressedName of rfc_test.go: pointer | 0xC000 written big-endian
as a uint16. -/
def writeCompressedName (pointer : Nat) : List Nat :=
  let compressed := (pointer ||| 0xC000) % 65536
  [compressed / 256, compressed % 256]

/-- The octets of a Lean string literal, to write test inputs readably. -/
def octets (s : String) : List Nat := s.toList.map Char.toNat

/-- The message built by createTestMessage of rfc_test.go. -/
def createTestMessage : List Nat :=
  [0x04, 0xd2, 0x01, 0x00, 0x00, 0x01, 0x00, 0x00, 0x00, 0x00, 0x00, 0x00]
    ++ writeDomainName (octets "google.com") ++ [0, QTypeA] ++ [0, QClassIN]

/-- The message built by createCompressedMessage of rfc_test.go. -/
def createCompressedMessage : List Nat :=
  [0x04, 0xd2, 0x81, 0x80, 0x00, 0x01, 0x00, 0x02, 0x00, 0x00, 0x00, 0x00]
    ++ writeDomainName (octets "www.google.com") ++ [0, QTypeA] ++ [0, QClassIN]
    ++ writeCompressedName 12 ++ [0, TypeA] ++ [0, ClassIN] ++ [0, 0, 1, 44] ++ [0, 4]
    ++ [192, 0, 2, 1]
    ++ writeCompressedName 12 ++ [0, TypeA] ++ [0, ClassIN] ++ [0, 0, 1, 44] ++ [0, 4]
    ++ [192, 0, 2, 2]

/-! ## Wire forms used to state the properties -/

/-- A sequence of labels on the wire, each preceded by its length octet, without the
terminating zero octet. -/
def labelOctets (labels : List (List Nat)) : List Nat :=
  (labels.map fun l => l.length :: l).flatten

/-- The text of a name: every label followed by the separator octet 46. -/
def dottedName (labels : List (List Nat)) : List Nat :=
  (labels.map fun l => l ++ [46]).flatten

/-- Bit i of the octet b. -/
def bit (b i : Nat) : Bool := decide (b / 2 ^ i % 2 = 1)

/-- The field made of the bits hi down to lo of the octet b. -/
def bits (b hi lo : Nat) : Nat := b / 2 ^ lo % 2 ^ (hi + 1 - lo)

/-- The fixed-width octets of an address record that createCompressedMessage chooses
freely: class, TTL and the four address octets. -/
structure AFields where
  class0 : Nat
  class1 : Nat
  ttl0 : Nat
  ttl1 : Nat
  ttl2 : Nat
  ttl3 : Nat
  a0 : Nat
  a1 : Nat
  a2 : Nat
  a3 : Nat
  deriving DecidableEq, Repr

/-- One answer as createCompressedMessage writes it: the owner name is the pointer to
startPos, the type is A, RDLENGTH is 4. -/
def compressedARecord (startPos : Nat) (f : AFields) : List Nat :=
  writeCompressedName startPos ++ [0, TypeA] ++ [f.class0, f.class1]
    ++ [f.ttl0, f.ttl1, f.ttl2, f.ttl3] ++ [0, 4] ++ [f.a0, f.a1, f.a2, f.a3]

/-- The shape of message built by createCompressedMessage, for any labels, any number
of answers and any choice of the free octets: a header with QDCOUNT 1, ANCOUNT the
number of answers, NSCOUNT and ARCOUNT 0; one question with its name uncompressed at
offset 12; the answers, each owned by the pointer to offset 12. -/
def compressedMessage (h0 h1 h2 h3 : Nat) (labels : List (List Nat))
    (qtype0 qtype1 qclass0 qclass1 : Nat) (recs : List AFields) : List Nat :=
  [h0, h1, h2, h3, 0, 1, recs.length / 256, recs.length % 256, 0, 0, 0, 0]
    ++ (labelOctets labels ++ [0]) ++ [qtype0, qtype1, qclass0, qclass1]
    ++ (recs.map (compressedARecord 12)).flatten

/-! ## Concrete inputs -/

/-- The value that parseMessage returns on createTestMessage. -/
def createTestMessageParsed : Message :=
  { Header := { ID := 1234, QR := false, OPCode := 0, AA := false, TC := false, RD := true,
                RA := false, RCode := 0, QDCount := 1, ANCount := 0, NSCount := 0,
                ARCount := 0 },
    Question := [{ QName := octets "google.com.", QType := QTypeA, QClass := QClassIN }],
    Answer := [], Authority := [], Additional := [] }

/-- A nameserver record as a referral carries it: owner name the pointer to offset 12,
type NS, class IN, TTL 60, and as RDATA the uncompressed name given. -/
def nsRecord (nsdname : List Nat) : List Nat :=
  writeCompressedName 12 ++ [0, TypeNS] ++ [0, ClassIN] ++ [0, 0, 0, 60]
    ++ [0, (writeDomainName nsdname).length] ++ writeDomainName nsdname

/-- A referral for the question "com." of type A with the given authority records. -/
def referralMessage (authority : List (List Nat)) : List Nat :=
  [0x04, 0xd2, 0x80, 0x00, 0x00, 0x01, 0x00, 0x00, 0x00, authority.length, 0x00, 0x00]
    ++ writeDomainName (octets "com") ++ [0, QTypeA] ++ [0, QClassIN] ++ authority.flatten

/-- A referral with the single authority record  com. NS a.ns. -/
def oneNSMessage : List Nat := referralMessage [nsRecord (octets "a.ns")]

/-- A referral with the two authority records  com. NS a.ns.  and  com. NS b.ns. -/
def twoNSMessage : List Nat :=
  referralMessage [nsRecord (octets "a.ns"), nsRecord (octets "b.ns")]

/-- A buffer of 261 octets holding the name "x." at offset 4, the name "y." at offset
256 and, at offset 259, the pointer that writeCompressedName writes for offset 256. -/
def pointerDemoMessage : List Nat :=
  List.replicate 4 0 ++ [1, 120, 0] ++ List.replicate 249 0 ++ [1, 121, 0]
    ++ writeCompressedName 256

/-- A section of two records: a PTR record (root owner, class IN, TTL 0, RDLENGTH 3,
RDATA the name "a.") followed by an A record (root owner, class IN, TTL 0, RDLENGTH 4,
address 1.2.3.4). -/
def ptrThenARecords : List Nat :=
  ([0] ++ [0, TypePTR] ++ [0, ClassIN] ++ [0, 0, 0, 0] ++ [0, 3] ++ [1, 97, 0])
    ++ ([0] ++ [0, TypeA] ++ [0, ClassIN] ++ [0, 0, 0, 0] ++ [0, 4] ++ [1, 2, 3, 4])

/-- An A record (root owner, class IN, TTL 0) that declares RDLENGTH 6 and carries six
octets of RDATA, followed by the octet 7. -/
def longARecord : List Nat :=
  [0] ++ [0, TypeA] ++ [0, ClassIN] ++ [0, 0, 0, 0] ++ [0, 6] ++ [1, 2, 3, 4, 5, 6] ++ [7]

/-- The content of the caller's buffer after a call of parseMessage on an input of at
least twelve octets.  The only write of the decoder is  secondRow[0] = secondRow[0] << 1
in parseMessageHeader, and secondRow aliases octets 2 and 3 of the buffer.  On a shorter
input the call faults and the result is none. -/
def bufferAfterParseMessage (messageBytes : List Nat) : Option (List Nat) :=
  if messageBytes.length < headerSizeBytes then none
  else
    match parseMessageHeader (messageBytes.take headerSizeBytes) with
    | .ok (_, headerBytes) => some (headerBytes ++ messageBytes.drop headerSizeBytes)
    | _ => some messageBytes

/-- A response with one answer and nothing else: an A record (root owner, class IN,
TTL 0) that declares RDLENGTH 10 and is followed by four octets only. -/
def shortARecordMessage : List Nat :=
  [0x04, 0xd2, 0x80, 0x00, 0x00, 0x00, 0x00, 0x01, 0x00, 0x00, 0x00, 0x00]
    ++ ([0] ++ [0, TypeA] ++ [0, ClassIN] ++ [0, 0, 0, 0] ++ [0, 10] ++ [1, 2, 3, 4])

/-- A buffer holding the name "a." at offset 0 and, at offset 3, the octet 0x40 (only
the second of the two top bits set) followed by a zero octet. -/
def markerDemoMessage : List Nat := [1, 97, 0] ++ [0x40, 0x00]

end Rfc

/-! # The iterative resolver (package dns) : a shallow embedding

The exchange with an upstream server (outgoingDnsQuery: random ID, packing, UDP dial,
write, read, parse of header and questions) is an oracle.  The oracle is asked with the
number of exchanges made before, the candidate servers and the question, so that two
exchanges with the same servers and question may be answered differently.  The
embedding threads the list of exchanges made so far through dnsQuery; the recursion of
dnsQuery into itself is bounded by a budget of nested calls.
-/

namespace Dns

open Rfc (Outcome octets)

/-! ## Constants of dnsmessage and of resolver.go -/

def TypeA : Nat := 1
def TypeNS : Nat := 2
def ClassINET : Nat := 1
def RCodeSuccess : Nat := 0
def RCodeNameError : Nat := 3

/-- The constant ROOT_SERVERS of resolver.go. -/
def ROOT_SERVERS : List Nat :=
  octets "198.41.0.4,199.9.14.201,192.33.4.12,199.7.91.13,192.203.230.10,192.5.5.241,192.112.36.4,198.97.190.53"

/-! ## net.ParseIP -/

/-- One field of a dotted-decimal address, as netip.parseIPv4 reads it: at least one
character, digits only, no leading zero in a field of two or more digits, value at most
255. -/
def parseIPv4Field (field : List Nat) : Option Nat :=
  if field = [] then none
  else if field.any (fun c => decide (c < 48 ∨ 57 < c)) then none
  else if 2 ≤ field.length ∧ field.head? = some 48 then none
  else
    let val := field.foldl (fun v c => v * 10 + (c - 48)) 0
    if val > 255 then none else some val

/-- The dotted-decimal form: exactly four fields separated by dots. -/
def parseIPv4 (s : List Nat) : Option (List Nat) :=
  match (s.splitOn 46).map parseIPv4Field with
  | [some a, some b, some c, some d] => some [a, b, c, d]
  | _ => none

/-- The sixteen-octet form in which net.ParseIP returns an IPv4 address. -/
def v4InV6 (a b c d : Nat) : List Nat :=
  [0, 0, 0, 0, 0, 0, 0, 0, 0, 0, 0xff, 0xff, a, b, c, d]

/-- Modelled from the documentation of net.ParseIP (standard library): the result for
text in dotted-decimal form is the IPv4-mapped sixteen-octet address, and nil, here the
empty list, for text that is no address.  Text holding a colon is IPv6 text; its
parsing is left out and the model answers nil for it (ROOT_SERVERS holds no colon). -/
def ParseIP (s : List Nat) : List Nat :=
  match parseIPv4 s with
  | some [a, b, c, d] => v4InV6 a b c d
  | _ => []

/-- The function getRootServers of resolver.go; strings.Split on "," is
List.splitOn 44. -/
def getRootServers : List (List Nat) :=
  (ROOT_SERVERS.splitOn 44).map ParseIP

/-! ## Data model (package dnsmessage) -/

/-- The type dnsmessage.Question; Name is the text of the name. -/
structure Question where
  Name : List Nat
  /-- the field Type of the Go struct (a reserved word here) -/
  RType : Nat
  Class : Nat
  deriving DecidableEq, Repr

/-- The type dnsmessage.ResourceHeader. -/
structure ResourceHeader where
  Name : List Nat
  /-- the field Type of the Go struct (a reserved word here) -/
  RType : Nat
  Class : Nat := ClassINET
  TTL : Nat := 0
  Length : Nat := 0
  deriving DecidableEq, Repr

/-- The dynamic type of a dnsmessage.ResourceBody, as far as dnsQuery asserts it: an
AResource with its four address octets, an NSResource with the text of its name, or a
body of another type. -/
inductive ResourceBody where
  | AResource (A : List Nat)
  | NSResource (NS : List Nat)
  | other
  deriving DecidableEq, Repr

/-- The type dnsmessage.Resource. -/
structure Resource where
  Header : ResourceHeader
  Body : ResourceBody
  deriving DecidableEq, Repr

/-- The type dnsmessage.Header; a field left out of a composite literal is zero. -/
structure Header where
  ID : Nat := 0
  Response : Bool := false
  OpCode : Nat := 0
  Authoritative : Bool := false
  Truncated : Bool := false
  RecursionDesired : Bool := false
  RecursionAvailable : Bool := false
  AuthenticData : Bool := false
  CheckingDisabled : Bool := false
  RCode : Nat := RCodeSuccess
  deriving DecidableEq, Repr

/-- The type dnsmessage.Message. -/
structure Message where
  Header : Header := {}
  Questions : List Question := []
  Answers : List Resource := []
  Authorities : List Resource := []
  Additionals : List Resource := []
  deriving DecidableEq, Repr

/-- What outgoingDnsQuery hands back on success: the parsed header of the reply and a
parser positioned after the questions.  The three sections are what the calls
AllAnswers, AllAuthorities and AllAdditionals of that parser return, none standing for
a returned error. -/
structure Reply where
  Header : Header
  AllAnswers : Option (List Resource)
  AllAuthorities : Option (List Resource)
  AllAdditionals : Option (List Resource)
  deriving DecidableEq, Repr

/-- The upstream oracle: the answer to the exchange number n made with the given
candidate servers and question, or the error that outgoingDnsQuery returns. -/
abbrev Upstream := Nat → List (List Nat) → Question → Except String Reply

/-- The exchanges made so far, oldest first: candidate servers and question. -/
abbrev Log := List (List (List Nat) × Question)

/-! ## dnsQuery -/

/-- The function outgoingDnsQuery of resolver.go.  With no candidate server the dial
loop leaves conn nil and the function returns an error without any exchange (the text
is the one returned for a question that Pack accepts: the value formatted into it is
the nil error left by Pack).  With candidate servers
every call is recorded as an exchange and answered by the oracle; this includes the
calls that the Go code ends before dialling, with the error of rand.Int or of Pack (a
question whose name cannot be packed, such as the empty name): the oracle answers them
with an error, and they count as an exchange here although no datagram is sent. -/
def outgoingDnsQuery (up : Upstream) (log : Log) (servers : List (List Nat))
    (question : Question) : Except String Reply × Log :=
  if servers = [] then (.error "failed to make connection to server %!s(<nil>)", log)
  else (up log.length servers question, log ++ [(servers, question)])

/-- The loop of dnsQuery over the authorities: nameservers has one entry per authority,
the text of the NS target for a record of type NS and the empty string otherwise.  The
type assertion on the body faults when the body is no NSResource. -/
def collectNameservers : List Resource → Outcome (List (List Nat))
  | [] => .ok []
  | authority :: rest =>
    if authority.Header.RType = TypeNS then
      match authority.Body with
      | .NSResource ns => (collectNameservers rest).bind fun l => .ok (ns :: l)
      | _ => .fault
    else (collectNameservers rest).bind fun l => .ok ([] :: l)

/-- The inner loop of the glue search, for one additional record of type A: the pair is
(newResolverServersFound, servers). -/
def glueInner (additional : Resource) :
    List (List Nat) → Bool × List (List Nat) → Outcome (Bool × List (List Nat))
  | [], st => .ok st
  | nameserver :: rest, (found, servers) =>
    if additional.Header.Name = nameserver then
      match additional.Body with
      | .AResource a => glueInner additional rest (true, servers ++ [a])
      | _ => .fault
    else glueInner additional rest (found, servers)

/-- The loop of dnsQuery over the additionals. -/
def glueLoop (nameservers : List (List Nat)) :
    List Resource → Bool × List (List Nat) → Outcome (Bool × List (List Nat))
  | [], st => .ok st
  | additional :: rest, st =>
    if additional.Header.RType = TypeA then
      (glueInner additional nameservers st).bind fun st1 => glueLoop nameservers rest st1
    else glueLoop nameservers rest st

/-- The loop over response.Answers in the fallback: the addresses of the answers of
type A are appended to servers. -/
def answerAddresses : List Resource → List (List Nat) → Outcome (List (List Nat))
  | [], servers => .ok servers
  | answer :: rest, servers =>
    if answer.Header.RType = TypeA then
      match answer.Body with
      | .AResource a => answerAddresses rest (servers ++ [a])
      | _ => .fault
    else answerAddresses rest servers

/-- The fallback loop of dnsQuery over nameservers, entered when the glue search found
nothing; nested stands for the recursive call of dnsQuery.  MustNewName faults on a
name longer than 255 octets. -/
def nestedLookups (nested : Log → List (List Nat) → Question → Outcome Message × Log) :
    List (List Nat) → Bool × List (List Nat) → Log → Outcome (Bool × List (List Nat)) × Log
  | [], st, log => (.ok st, log)
  | nameserver :: rest, (found, servers), log =>
    if found then nestedLookups nested rest (found, servers) log
    else if nameserver.length > 255 then (.fault, log)
    else
      match nested log getRootServers
          { Name := nameserver, RType := TypeA, Class := ClassINET } with
      | (.ok response, log1) =>
        match answerAddresses response.Answers servers with
        | .ok servers1 => nestedLookups nested rest (true, servers1) log1
        | .error e => (.error e, log1)
        | .fault => (.fault, log1)
        | .outOfFuel => (.outOfFuel, log1)
      | (.error _, log1) => nestedLookups nested rest (false, servers) log1
      | (.fault, log1) => (.fault, log1)
      | (.outOfFuel, log1) => (.outOfFuel, log1)

/-- The for loop of dnsQuery with the given number of iterations left, and the return
statement after it. -/
def dnsQueryLoop (up : Upstream)
    (nested : Log → List (List Nat) → Question → Outcome Message × Log) :
    Nat → Log → List (List Nat) → Question → Outcome Message × Log
  | 0, log, _, _ => (.ok { Header := { RCode := RCodeSuccess } }, log)
  | n + 1, log, servers, question =>
    match outgoingDnsQuery up log servers question with
    | (.error e, log1) => (.error e, log1)
    | (.ok reply, log1) =>
      match reply.AllAnswers with
      | none => (.error "AllAnswers", log1)
      | some parsedAnswers =>
        if reply.Header.Authoritative then
          (.ok { Header := { Response := true }, Answers := parsedAnswers }, log1)
        else
          match reply.AllAuthorities with
          | none => (.error "AllAuthorities", log1)
          | some authorities =>
            if authorities.length = 0 then
              (.ok { Header := { RCode := RCodeNameError } }, log1)
            else
              match collectNameservers authorities with
              | .ok nameservers =>
                match reply.AllAdditionals with
                | none => (.error "AllAdditionals", log1)
                | some additionals =>
                  match glueLoop nameservers additionals (false, []) with
                  | .ok (newResolverServersFound, servers1) =>
                    if !newResolverServersFound then
                      match nestedLookups nested nameservers
                          (newResolverServersFound, servers1) log1 with
                      | (.ok (_, servers2), log2) =>
                        dnsQueryLoop up nested n log2 servers2 question
                      | (.error e, log2) => (.error e, log2)
                      | (.fault, log2) => (.fault, log2)
                      | (.outOfFuel, log2) => (.outOfFuel, log2)
                    else dnsQueryLoop up nested n log1 servers1 question
                  | .error e => (.error e, log1)
                  | .fault => (.fault, log1)
                  | .outOfFuel => (.outOfFuel, log1)
              | .error e => (.error e, log1)
              | .fault => (.fault, log1)
              | .outOfFuel => (.outOfFuel, log1)

/-- The function dnsQuery of resolver.go: three iterations, the nested calls running on
a budget one less.  The result is the returned message or error, and the exchanges made
up to the return. -/
def dnsQuery (up : Upstream) : Nat → Log → List (List Nat) → Question → Outcome Message × Log
  | 0, log, _, _ => (.outOfFuel, log)
  | fuel + 1, log, servers, question =>
    dnsQueryLoop up (dnsQuery up fuel) 3 log servers question

/-- The part of handlePacket between the parse of the incoming packet (header and
question given) and the packing of the response: the resolution from the root servers
and the copy of the ID. -/
def handlePacket (up : Upstream) (fuel : Nat) (header : Header) (question : Question) :
    Outcome Message × Log :=
  match dnsQuery up fuel [] getRootServers question with
  | (.ok response, log) =>
    (.ok { response with Header := { response.Header with ID := header.ID } }, log)
  | (.error e, log) => (.error e, log)
  | (.fault, log) => (.fault, log)
  | (.outOfFuel, log) => (.outOfFuel, log)

/-! ## Replies and oracles used to state the properties -/

/-- A record of type NS with the given owner and target. -/
def nsResource (owner target : List Nat) : Resource :=
  { Header := { Name := owner, RType := TypeNS }, Body := .NSResource target }

/-- A record of type A with the given owner and address octets. -/
def aResource (owner address : List Nat) : Resource :=
  { Header := { Name := owner, RType := TypeA }, Body := .AResource address }

/-- An authoritative reply carrying the given answers. -/
def authoritativeReply (answers : List Resource) : Reply :=
  { Header := { Response := true, Authoritative := true }, AllAnswers := some answers,
    AllAuthorities := some [], AllAdditionals := some [] }

/-- A non-authoritative reply with the given authority and additional sections. -/
def referralReply (authorities additionals : List Resource) : Reply :=
  { Header := { Response := true }, AllAnswers := some [], AllAuthorities := some authorities,
    AllAdditionals := some additionals }

/-- The question  example.com. A IN. -/
def exampleQuestion : Question :=
  { Name := octets "example.com.", RType := TypeA, Class := ClassINET }

/-- An upstream that answers every exchange authoritatively with one address. -/
def authoritativeUpstream : Upstream := fun _ _ question =>
  .ok (authoritativeReply [aResource question.Name [93, 184, 216, 34]])

/-- An upstream that answers every exchange with a non-authoritative reply whose
authority section is empty. -/
def emptyAuthorityUpstream : Upstream := fun _ _ _ => .ok (referralReply [] [])

/-- An upstream that answers every exchange with a referral to the nameserver
ns.example. and no additional record. -/
def gluelessUpstream : Upstream := fun _ _ _ =>
  .ok (referralReply [nsResource (octets "com.") (octets "ns.example.")] [])

/-- An upstream that answers every exchange with a referral to the nameserver
ns.example. together with its address 192.0.2.1 as glue. -/
def glueUpstream : Upstream := fun _ _ _ =>
  .ok (referralReply [nsResource (octets "com.") (octets "ns.example.")]
    [aResource (octets "ns.example.") [192, 0, 2, 1]])

/-- A reply that is not authoritative, has a non-empty authority section, and in whose
additional section the glue search of dnsQuery finds at least one address. -/
def IsGlueReferral (reply : Reply) : Prop :=
  reply.Header.Authoritative = false ∧
  ∃ answers authorities nameservers additionals servers,
    reply.AllAnswers = some answers ∧
    reply.AllAuthorities = some authorities ∧ authorities ≠ [] ∧
    collectNameservers authorities = .ok nameservers ∧
    reply.AllAdditionals = some additionals ∧
    glueLoop nameservers additionals (false, []) = .ok (true, servers)

/-- The addresses of the records of type A in a section, in the order of the section. -/
def addressesOf (records : List Resource) : List (List Nat) :=
  records.filterMap fun r =>
    if r.Header.RType = TypeA then
      match r.Body with
      | .AResource a => some a
      | _ => none
    else none

/-- The nested resolutions of all the given names, made one after the other from the
root servers, return an error: the result is the list of exchanges after the last of
them, and none as soon as one of them does not return an error. -/
def nestedFailures (nested : Log → List (List Nat) → Question → Outcome Message × Log) :
    List (List Nat) → Log → Option Log
  | [], log => some log
  | nameserver :: rest, log =>
    match nested log getRootServers { Name := nameserver, RType := TypeA, Class := ClassINET } with
    | (.error _, log1) => nestedFailures nested rest log1
    | _ => none

/-- An upstream for a delegation without glue.  Asked for the address of a.ns. or of
b.ns. it answers authoritatively (10.0.0.1 and 10.0.0.2); asked for down.ns. the
exchange fails; a root server asked anything else refers to the nameservers a.ns. and
b.ns. without glue; any other server answers the question authoritatively. -/
def twoNameserverUpstream : Upstream := fun _ servers question =>
  if question.Name = octets "a.ns." then
    .ok (authoritativeReply [aResource (octets "a.ns.") [10, 0, 0, 1]])
  else if question.Name = octets "b.ns." then
    .ok (authoritativeReply [aResource (octets "b.ns.") [10, 0, 0, 2]])
  else if question.Name = octets "down.ns." then .error "i/o timeout"
  else if servers = getRootServers then
    .ok (referralReply [nsResource (octets "com.") (octets "a.ns."),
      nsResource (octets "com.") (octets "b.ns.")] [])
  else .ok (authoritativeReply [aResource question.Name [93, 184, 216, 34]])

/-- The question for the address of the given nameserver, as the fallback asks it. -/
def addressQuestion (nameserver : List Nat) : Question :=
  { Name := nameserver, RType := TypeA, Class := ClassINET }

/-! ## The glue of a referral -/

/-- The entry of nameservers that dnsQuery writes for one authority record: the target
of a record of type NS, the empty string for a record of another type. -/
def nameserverOf (r : Resource) : List Nat :=
  if r.Header.RType = TypeNS then
    match r.Body with
    | .NSResource ns => ns
    | _ => []
  else []

/-- The targets of the NS records of an authority section, in the order of the
section. -/
def nsTargets (authorities : List Resource) : List (List Nat) :=
  authorities.filterMap fun r =>
    if r.Header.RType = TypeNS then
      match r.Body with
      | .NSResource ns => some ns
      | _ => none
    else none

/-- What one additional record contributes to the candidate set, given the list of
names searched: the address of a record of type A, once for every occurrence of its
owner name in the list; nothing for a record of another type. -/
def glueEntries (names : List (List Nat)) (r : Resource) : List (List Nat) :=
  if r.Header.RType = TypeA then
    match r.Body with
    | .AResource a => List.replicate (names.count r.Header.Name) a
    | _ => []
  else []

/-- The addresses of the additional A records, each repeated once for every NS record of
the authority section whose target is its owner name, in the order of the additional
section. -/
def glueAddresses (authorities additionals : List Resource) : List (List Nat) :=
  (additionals.map (glueEntries (nsTargets authorities))).flatten

/-- The addresses of the additional A records whose owner name is the target of some
NS record of the authority section, one entry per such record, in the order of the
additional section. -/
def matchingGlue (authorities additionals : List Resource) : List (List Nat) :=
  addressesOf (additionals.filter fun r => decide (r.Header.Name ∈ nsTargets authorities))

/-- An upstream whose root servers answer with a referral that names the nameserver
ns.example. in two NS records and carries its address once as glue; any other server
answers the question authoritatively. -/
def duplicateNsUpstream : Upstream := fun _ servers question =>
  if servers = getRootServers then
    .ok (referralReply [nsResource (octets "com.") (octets "ns.example."),
      nsResource (octets "com.") (octets "ns.example.")]
      [aResource (octets "ns.example.") [192, 0, 2, 1]])
  else .ok (authoritativeReply [aResource question.Name [93, 184, 216, 34]])

end Dns

namespace Rfc

/-- A response of 276 octets for the question  com. A IN  with two answers and one
authority record, all owned by the pointer to offset 12: a TXT record with 211 octets
of text, a CNAME record whose RDATA is the uncompressed name "a.ns." and starts at
offset 256, and an NS record whose RDATA is the pointer that writeCompressedName writes
for offset 256. -/
def pointerRDataMessage : List Nat :=
  [0x04, 0xd2, 0x80, 0x00, 0x00, 0x01, 0x00, 0x02, 0x00, 0x01, 0x00, 0x00]
    ++ writeDomainName (octets "com") ++ [0, QTypeA] ++ [0, QClassIN]
    ++ (writeCompressedName 12 ++ [0, TypeTXT] ++ [0, ClassIN] ++ [0, 0, 0, 60] ++ [0, 211]
      ++ List.replicate 211 120)
    ++ (writeCompressedName 12 ++ [0, TypeCNAME] ++ [0, ClassIN] ++ [0, 0, 0, 60] ++ [0, 6]
      ++ writeDomainName (octets "a.ns"))
    ++ (writeCompressedName 12 ++ [0, TypeNS] ++ [0, ClassIN] ++ [0, 0, 0, 60] ++ [0, 2]
      ++ writeCompressedName 256)

/-- The value that parseMessage returns on pointerRDataMessage. -/
def pointerRDataMessageParsed : Message :=
  { Header := { ID := 1234, QR := true, OPCode := 0, AA := false, TC := false, RD := false,
                RA := false, RCode := 0, QDCount := 1, ANCount := 2, NSCount := 1,
                ARCount := 0 },
    Question := [{ QName := octets "com.", QType := QTypeA, QClass := QClassIN }],
    Answer := [{ Name := octets "com.", RType := TypeTXT, Class := ClassIN, TTL := 60,
                 RDLength := 211, RData := .TXT (List.replicate 211 120) },
               { Name := octets "com.", RType := TypeCNAME, Class := ClassIN, TTL := 60,
                 RDLength := 6, RData := .CNAME (octets "a.ns.") }],
    Authority := [{ Name := octets "com.", RType := TypeNS, Class := ClassIN, TTL := 60,
                    RDLength := 2, RData := .NS [] }],
    Additional := [] }

/-- The offset that a compression pointer references, after the definition of the
wire format: the 14 bits left when the two marker bits of the first octet are stripped,
the first octet being the more significant. -/
def referencedOffset (b0 b1 : Nat) : Nat := (b0 &&& 0x3F) * 256 + b1

/-- A buffer of 263 octets.  The name "y." lies at offset 256 and the pointer that
writeCompressedName writes for offset 256 lies at offset 261.  Read from offset 4 on,
the buffer holds four labels of 63 octets (the last one covers offsets 197 to 259) and
a label of two octets, announced at offset 260, which is the pointer itself and ends
with the buffer. -/
def cursorDemoMessage : List Nat :=
  [0, 0, 0, 0] ++ (63 :: List.replicate 63 0) ++ (63 :: List.replicate 63 0)
    ++ (63 :: List.replicate 63 0) ++ (63 :: (List.replicate 59 0 ++ [1, 121, 0] ++ [0]))
    ++ [2] ++ writeCompressedName 256

/-! # Properties -/

/-! ## Arithmetic of octets -/

theorem Uint16_eq (b0 b1 : Nat) (h1 : b1 < 256) : Uint16 b0 b1 = 256 * b0 + b1 := by
  have h := Nat.mul_add_lt_is_or (show b1 < 2 ^ 8 from h1) b0
  rw [Uint16, Nat.shiftLeft_eq, Nat.lor_comm, Nat.mul_comm b0]
  exact h.symm

theorem Uint16_div_mod (n : Nat) : Uint16 (n / 256) (n % 256) = n := by
  rw [Uint16_eq _ _ (Nat.mod_lt _ (by decide))]
  omega

theorem isCompressed_small : ∀ l < 64, isCompressed l = false := by decide

/-! ## Outcome.bind -/

@[simp] theorem Outcome.bind_ok {α β : Type} (a : α) (f : α → Outcome β) :
    (Outcome.ok a).bind f = f a := rfl

@[simp] theorem Outcome.bind_fault {α β : Type} (f : α → Outcome β) :
    (Outcome.fault : Outcome α).bind f = .fault := rfl

@[simp] theorem Outcome.bind_outOfFuel {α β : Type} (f : α → Outcome β) :
    (Outcome.outOfFuel : Outcome α).bind f = .outOfFuel := rfl

@[simp] theorem Outcome.bind_error {α β : Type} (e : String) (f : α → Outcome β) :
    (Outcome.error e : Outcome α).bind f = .error e := rfl

theorem Outcome.bind_eq_ok {α β : Type} {x : Outcome α} {f : α → Outcome β} {b : β}
    (h : x.bind f = .ok b) : ∃ a, x = .ok a ∧ f a = .ok b := by
  cases x with
  | ok a => exact ⟨a, rfl, h⟩
  | error e => simp at h
  | fault => simp at h
  | outOfFuel => simp at h

theorem readBytes_append (l tail : List Nat) :
    readBytes l.length (l ++ tail) = .ok (l, tail) := by
  have h : ¬ l.length > (l ++ tail).length := by simp
  simp [readBytes, h]

/-! ## The label loop of parseDomainName -/

theorem parseDomainNameLoop_zero (fuel : Nat) (fullMessage rest domainName : List Nat) :
    parseDomainNameLoop (fuel + 1) fullMessage (0 :: rest) domainName = .ok (domainName, rest) := by
  simp [parseDomainNameLoop, isCompressed]

theorem parseDomainNameLoop_label (fuel : Nat) (fullMessage l tail domainName : List Nat)
    (h1 : 1 ≤ l.length) (h63 : l.length ≤ 63) :
    parseDomainNameLoop (fuel + 1) fullMessage (l.length :: (l ++ tail)) domainName
      = parseDomainNameLoop fuel fullMessage tail (domainName ++ l ++ [46]) := by
  have hc : isCompressed l.length = false := isCompressed_small _ (by omega)
  have h0 : l.length ≠ 0 := by omega
  simp [parseDomainNameLoop, hc, h0]

theorem parseDomainNameLoop_labels (fullMessage : List Nat) :
    ∀ (labels : List (List Nat)), (∀ l ∈ labels, 1 ≤ l.length ∧ l.length ≤ 63) →
    ∀ (fuel : Nat) (tail domainName : List Nat),
      parseDomainNameLoop (fuel + labels.length) fullMessage (labelOctets labels ++ tail)
          domainName
        = parseDomainNameLoop fuel fullMessage tail (domainName ++ dottedName labels)
  | [], _, fuel, tail, domainName => by simp [labelOctets, dottedName]
  | l :: ls, h, fuel, tail, domainName => by
    have hl := h l (List.mem_cons_self _ _)
    have ih := parseDomainNameLoop_labels fullMessage ls
      (fun x hx => h x (List.mem_cons_of_mem _ hx)) fuel tail (domainName ++ l ++ [46])
    have hstep := parseDomainNameLoop_label (fuel + ls.length) fullMessage l
      (labelOctets ls ++ tail) domainName hl.1 hl.2
    have e1 : labelOctets (l :: ls) ++ tail = l.length :: (l ++ (labelOctets ls ++ tail)) := by
      simp [labelOctets]
    have e2 : domainName ++ dottedName (l :: ls) = domainName ++ l ++ [46] ++ dottedName ls := by
      simp [dottedName]
    rw [e1, e2, List.length_cons, ← Nat.add_assoc, hstep, ih]

/-- An uncompressed name followed by the zero octet decodes to its dotted text, leaving
the octets after the terminator. -/
theorem parseDomainName_uncompressed (fullMessage : List Nat) (labels : List (List Nat))
    (hlen : ∀ l ∈ labels, 1 ≤ l.length ∧ l.length ≤ 63) (fuel : Nat) (rest : List Nat)
    (hfuel : labels.length < fuel) :
    parseDomainName fuel fullMessage (labelOctets labels ++ 0 :: rest)
      = .ok (dottedName labels, rest) := by
  obtain ⟨k, rfl⟩ : ∃ k, fuel = (k + 1) + labels.length := ⟨fuel - labels.length - 1, by omega⟩
  rw [parseDomainName, parseDomainNameLoop_labels fullMessage labels hlen,
    parseDomainNameLoop_zero]
  simp

theorem writeDomainName_intercalate (labels : List (List Nat)) (hne : labels ≠ [])
    (hlen : ∀ l ∈ labels, 1 ≤ l.length ∧ l.length ≤ 63) (hdot : ∀ l ∈ labels, 46 ∉ l) :
    writeDomainName ([46].intercalate labels) = labelOctets labels ++ [0] := by
  rw [writeDomainName, List.splitOn_intercalate labels 46 hdot hne, labelOctets]
  congr 2
  apply List.map_congr_left
  intro l hl
  rw [Nat.mod_eq_of_lt (by have := hlen l hl; omega)]

theorem intercalate_append_dot : ∀ (labels : List (List Nat)), labels ≠ [] →
    [46].intercalate labels ++ [46] = dottedName labels
  | [], h => absurd rfl h
  | [l], _ => by simp [List.intercalate, dottedName]
  | l :: l2 :: ls, _ => by
    have ih := intercalate_append_dot (l2 :: ls) (by simp)
    simp only [List.intercalate, dottedName, List.intersperse, List.flatten, List.map,
      List.append_assoc] at ih ⊢
    rw [ih]

/-! ## C1 : round trip of an uncompressed name -/

/-- C1: for a non-empty list of labels, each of 1 to 63 octets without the octet of
the dot, parseDomainName applied to what writeDomainName writes for the labels joined
by dots, followed by any octets rest, returns the joined labels with one trailing dot
and exactly rest as the remaining octets (given a budget above the number of labels). -/
theorem parseDomainName_writeDomainName (labels : List (List Nat)) (hne : labels ≠ [])
    (hlen : ∀ l ∈ labels, 1 ≤ l.length ∧ l.length ≤ 63) (hdot : ∀ l ∈ labels, 46 ∉ l)
    (fullMessage rest : List Nat) (fuel : Nat) (hfuel : labels.length < fuel) :
    parseDomainName fuel fullMessage (writeDomainName ([46].intercalate labels) ++ rest)
      = .ok ([46].intercalate labels ++ [46], rest) := by
  rw [writeDomainName_intercalate labels hne hlen hdot, intercalate_append_dot labels hne,
    List.append_assoc]
  exact parseDomainName_uncompressed fullMessage labels hlen fuel rest hfuel

theorem parseDomainName_writeDomainName_witness :
    parseDomainName 3 [] (writeDomainName ([46].intercalate [octets "google", octets "com"])
        ++ [0, 1, 0, 1])
      = .ok ([46].intercalate [octets "google", octets "com"] ++ [46], [0, 1, 0, 1]) :=
  parseDomainName_writeDomainName [octets "google", octets "com"] (by decide) (by decide)
    (by decide) [] [0, 1, 0, 1] 3 (by decide)

/-! ## C2 : layout of the header -/

set_option maxRecDepth 100000 in
theorem header_qr_bit : ∀ b < 256, decide (b &&& 0b10000000 > 0) = bit b 7 := by decide

set_option maxRecDepth 100000 in
theorem header_opcode_bits :
    ∀ b < 256, (((b <<< 1) % 256) &&& 0b11110000) >>> 4 = bits b 6 3 := by decide

set_option maxRecDepth 100000 in
theorem header_aa_bit :
    ∀ b < 256, decide (((b <<< 1) % 256) &&& 0b00001000 > 0) = bit b 2 := by decide

set_option maxRecDepth 100000 in
theorem header_tc_bit :
    ∀ b < 256, decide (((b <<< 1) % 256) &&& 0b00000100 > 0) = bit b 1 := by decide

set_option maxRecDepth 100000 in
theorem header_rd_bit :
    ∀ b < 256, decide (((b <<< 1) % 256) &&& 0b00000010 > 0) = bit b 0 := by decide

set_option maxRecDepth 100000 in
theorem header_rcode_bits : ∀ b < 256, b &&& 0b00001111 = bits b 3 0 := by decide

/-- The header decoded from twelve octets, field by field, and the buffer left behind. -/
theorem parseMessageHeader_twelve (h0 h1 h2 h3 h4 h5 h6 h7 h8 h9 h10 h11 : Nat) :
    parseMessageHeader [h0, h1, h2, h3, h4, h5, h6, h7, h8, h9, h10, h11]
      = .ok ({ ID := Uint16 h0 h1, QR := decide (h2 &&& 0b10000000 > 0),
               OPCode := (((h2 <<< 1) % 256) &&& 0b11110000) >>> 4,
               AA := decide (((h2 <<< 1) % 256) &&& 0b00001000 > 0),
               TC := decide (((h2 <<< 1) % 256) &&& 0b00000100 > 0),
               RD := decide (((h2 <<< 1) % 256) &&& 0b00000010 > 0),
               RA := decide (h3 &&& 0b10000000 > 0), RCode := h3 &&& 0b00001111,
               QDCount := Uint16 h4 h5, ANCount := Uint16 h6 h7, NSCount := Uint16 h8 h9,
               ARCount := Uint16 h10 h11 },
             [h0, h1, (h2 <<< 1) % 256, h3, h4, h5, h6, h7, h8, h9, h10, h11]) := rfl

/-- C2: on every input of twelve octets parseMessageHeader succeeds, and the header it
returns has ID equal to the big-endian word of octets 0 and 1, QR bit 7 of octet 2,
OPCode bits 6 to 3 of octet 2, AA, TC and RD bits 2, 1 and 0 of octet 2, RA bit 7 of
octet 3, RCode bits 3 to 0 of octet 3, and the four counts equal to the big-endian
words at octets 4-5, 6-7, 8-9 and 10-11, in the order QD, AN, NS, AR. -/
theorem parseMessageHeader_layout (h : List Nat) (hlen : h.length = 12)
    (hb : ∀ b ∈ h, b < 256) :
    ∃ hdr buf, parseMessageHeader h = .ok (hdr, buf) ∧
      hdr.ID = 256 * h.getD 0 0 + h.getD 1 0 ∧
      hdr.QR = bit (h.getD 2 0) 7 ∧
      hdr.OPCode = bits (h.getD 2 0) 6 3 ∧
      hdr.AA = bit (h.getD 2 0) 2 ∧
      hdr.TC = bit (h.getD 2 0) 1 ∧
      hdr.RD = bit (h.getD 2 0) 0 ∧
      hdr.RA = bit (h.getD 3 0) 7 ∧
      hdr.RCode = bits (h.getD 3 0) 3 0 ∧
      hdr.QDCount = 256 * h.getD 4 0 + h.getD 5 0 ∧
      hdr.ANCount = 256 * h.getD 6 0 + h.getD 7 0 ∧
      hdr.NSCount = 256 * h.getD 8 0 + h.getD 9 0 ∧
      hdr.ARCount = 256 * h.getD 10 0 + h.getD 11 0 := by
  match h, hlen, hb with
  | [h0, h1, h2, h3, h4, h5, h6, h7, h8, h9, h10, h11], _, hb =>
    have b1 : h1 < 256 := hb h1 (by simp)
    have b2 : h2 < 256 := hb h2 (by simp)
    have b3 : h3 < 256 := hb h3 (by simp)
    have b5 : h5 < 256 := hb h5 (by simp)
    have b7 : h7 < 256 := hb h7 (by simp)
    have b9 : h9 < 256 := hb h9 (by simp)
    have b11 : h11 < 256 := hb h11 (by simp)
    refine ⟨_, _, parseMessageHeader_twelve h0 h1 h2 h3 h4 h5 h6 h7 h8 h9 h10 h11, ?_⟩
    exact ⟨Uint16_eq h0 h1 b1, header_qr_bit h2 b2, header_opcode_bits h2 b2,
      header_aa_bit h2 b2, header_tc_bit h2 b2, header_rd_bit h2 b2, header_qr_bit h3 b3,
      header_rcode_bits h3 b3, Uint16_eq h4 h5 b5, Uint16_eq h6 h7 b7, Uint16_eq h8 h9 b9,
      Uint16_eq h10 h11 b11⟩

theorem parseMessageHeader_layout_witness :
    ∃ hdr buf, parseMessageHeader (createTestMessage.take 12) = .ok (hdr, buf) ∧
      hdr.ID = 256 * (createTestMessage.take 12).getD 0 0 + (createTestMessage.take 12).getD 1 0 ∧
      hdr.QR = bit ((createTestMessage.take 12).getD 2 0) 7 ∧
      hdr.OPCode = bits ((createTestMessage.take 12).getD 2 0) 6 3 ∧
      hdr.AA = bit ((createTestMessage.take 12).getD 2 0) 2 ∧
      hdr.TC = bit ((createTestMessage.take 12).getD 2 0) 1 ∧
      hdr.RD = bit ((createTestMessage.take 12).getD 2 0) 0 ∧
      hdr.RA = bit ((createTestMessage.take 12).getD 3 0) 7 ∧
      hdr.RCode = bits ((createTestMessage.take 12).getD 3 0) 3 0 ∧
      hdr.QDCount = 256 * (createTestMessage.take 12).getD 4 0 + (createTestMessage.take 12).getD 5 0 ∧
      hdr.ANCount = 256 * (createTestMessage.take 12).getD 6 0 + (createTestMessage.take 12).getD 7 0 ∧
      hdr.NSCount = 256 * (createTestMessage.take 12).getD 8 0 + (createTestMessage.take 12).getD 9 0 ∧
      hdr.ARCount = 256 * (createTestMessage.take 12).getD 10 0 + (createTestMessage.take 12).getD 11 0 :=
  parseMessageHeader_layout (createTestMessage.take 12) (by decide) (by decide)

/-! ## Following a compression pointer -/

theorem parseDomainNameLoop_nil_ne_ok (fuel : Nat) (fullMessage domainName : List Nat)
    (r : List Nat × List Nat) : parseDomainNameLoop fuel fullMessage [] domainName ≠ .ok r := by
  cases fuel <;> simp [parseDomainNameLoop]

/-- A pointer whose target decodes: the name of the target is appended and the cursor
moves past the two octets of the pointer. -/
theorem parseDomainNameLoop_pointer (fuel : Nat) (fullMessage : List Nat) (b0 b1 : Nat)
    (rest domainName target r : List Nat) (hc : isCompressed b0 = true)
    (ht : parseDomainName fuel fullMessage (fullMessage.drop (pointerOffset b0 b1))
      = .ok (target, r)) :
    parseDomainNameLoop (fuel + 1) fullMessage (b0 :: b1 :: rest) domainName
      = .ok (domainName ++ target, rest) := by
  rw [parseDomainName] at ht
  have hle : ¬ pointerOffset b0 b1 > fullMessage.length := by
    intro hgt
    rw [List.drop_of_length_le (Nat.le_of_lt hgt)] at ht
    exact parseDomainNameLoop_nil_ne_ok _ _ _ _ ht
  simp [parseDomainNameLoop, hc, hle, ht]

theorem parseDomainNameLoop_step_label (fuel : Nat) (fullMessage : List Nat) (length : Nat)
    (bytes1 domainName : List Nat) (hc : isCompressed length = false) (h0 : length ≠ 0)
    (hle : ¬ length > bytes1.length) :
    parseDomainNameLoop (fuel + 1) fullMessage (length :: bytes1) domainName
      = parseDomainNameLoop fuel fullMessage (bytes1.drop length)
          (domainName ++ bytes1.take length ++ [46]) := by
  simp [parseDomainNameLoop, hc, h0, hle]

/-- A larger budget does not change a result already obtained. -/
theorem parseDomainNameLoop_succ :
    ∀ (fuel : Nat) (fullMessage bytes domainName : List Nat) (r : List Nat × List Nat),
      parseDomainNameLoop fuel fullMessage bytes domainName = .ok r →
      parseDomainNameLoop (fuel + 1) fullMessage bytes domainName = .ok r
  | 0, _, _, _, _, h => by simp [parseDomainNameLoop] at h
  | fuel + 1, fullMessage, [], domainName, r, h => by simp [parseDomainNameLoop] at h
  | fuel + 1, fullMessage, length :: bytes1, domainName, r, h => by
    by_cases hc : isCompressed length = true
    · match bytes1, h with
      | [], h => simp [parseDomainNameLoop, hc] at h
      | b1 :: bytes2, h =>
        by_cases hp : pointerOffset length b1 > fullMessage.length
        · simp [parseDomainNameLoop, hc, hp] at h
        · cases hrec : parseDomainNameLoop fuel fullMessage
              (fullMessage.drop (pointerOffset length b1)) [] with
          | ok v =>
            simp only [parseDomainNameLoop, hc, hp, hrec, if_true, if_false] at h
            have ih := parseDomainNameLoop_succ fuel fullMessage _ [] v hrec
            rw [parseDomainNameLoop_pointer (fuel + 1) fullMessage length b1 bytes2 domainName
              v.1 v.2 hc ih]
            exact h
          | error e => simp [parseDomainNameLoop, hc, hp, hrec] at h
          | fault => simp [parseDomainNameLoop, hc, hp, hrec] at h
          | outOfFuel => simp [parseDomainNameLoop, hc, hp, hrec] at h
    · have hc : isCompressed length = false := by simpa using hc
      by_cases h0 : length = 0
      · subst h0
        rw [parseDomainNameLoop_zero] at h ⊢
        exact h
      · by_cases hle : length > bytes1.length
        · simp [parseDomainNameLoop, hc, h0, hle] at h
        · rw [parseDomainNameLoop_step_label _ _ _ _ _ hc h0 hle] at h ⊢
          exact parseDomainNameLoop_succ fuel fullMessage _ _ r h

theorem parseDomainName_mono (fuel fuel1 : Nat) (fullMessage bytes : List Nat)
    (r : List Nat × List Nat) (hle : fuel ≤ fuel1)
    (h : parseDomainName fuel fullMessage bytes = .ok r) :
    parseDomainName fuel1 fullMessage bytes = .ok r := by
  obtain ⟨k, rfl⟩ : ∃ k, fuel1 = fuel + k := ⟨fuel1 - fuel, by omega⟩
  induction k with
  | zero => exact h
  | succ k ih => exact parseDomainNameLoop_succ _ _ _ _ _ (ih (by omega))

/-! ## C3 : answers owned by a pointer to the question name -/

theorem parseResourceRecord_compressedA (fuel : Nat) (fullMessage : List Nat)
    (labels : List (List Nat)) (after : List Nat) (f : AFields) (tail : List Nat)
    (hlen : ∀ l ∈ labels, 1 ≤ l.length ∧ l.length ≤ 63)
    (hfull : fullMessage.drop 12 = labelOctets labels ++ 0 :: after)
    (hfuel : labels.length + 1 < fuel) :
    parseResourceRecord fuel fullMessage (compressedARecord 12 f ++ tail)
      = .ok ({ Name := dottedName labels, RType := TypeA, Class := Uint16 f.class0 f.class1,
               TTL := Uint32 f.ttl0 f.ttl1 f.ttl2 f.ttl3, RDLength := 4,
               RData := .A [f.a0, f.a1, f.a2, f.a3] }, tail) := by
  obtain ⟨k, rfl⟩ : ∃ k, fuel = k + 1 := ⟨fuel - 1, by omega⟩
  have ht : parseDomainName k fullMessage (fullMessage.drop (pointerOffset 192 12))
      = .ok (dottedName labels, after) := by
    rw [show pointerOffset 192 12 = 12 from by decide, hfull]
    exact parseDomainName_uncompressed fullMessage labels hlen k after (by omega)
  have hp := parseDomainNameLoop_pointer k fullMessage 192 12
    ([0, TypeA] ++ [f.class0, f.class1] ++ [f.ttl0, f.ttl1, f.ttl2, f.ttl3] ++ [0, 4]
      ++ [f.a0, f.a1, f.a2, f.a3] ++ tail) [] (dottedName labels) after (by decide) ht
  have hw : compressedARecord 12 f ++ tail = 192 :: 12 :: ([0, TypeA] ++ [f.class0, f.class1]
      ++ [f.ttl0, f.ttl1, f.ttl2, f.ttl3] ++ [0, 4] ++ [f.a0, f.a1, f.a2, f.a3] ++ tail) := by
    simp [compressedARecord, writeCompressedName]
  have hr : readBytes 4 (f.a0 :: f.a1 :: f.a2 :: f.a3 :: tail)
      = .ok ([f.a0, f.a1, f.a2, f.a3], tail) := readBytes_append [f.a0, f.a1, f.a2, f.a3] tail
  rw [parseResourceRecord, parseDomainName, hw, hp]
  simp only [List.cons_append, List.nil_append, Outcome.bind_ok, readUint16, readUint32,
    parseRData, show Uint16 0 TypeA = TypeA from rfl, if_true, show Uint16 0 4 = 4 from rfl]
  rw [hr]
  rfl

theorem parseResourceRecords_compressedA (fuel : Nat) (fullMessage : List Nat)
    (labels : List (List Nat)) (after : List Nat) (tail : List Nat)
    (hlen : ∀ l ∈ labels, 1 ≤ l.length ∧ l.length ≤ 63)
    (hfull : fullMessage.drop 12 = labelOctets labels ++ 0 :: after)
    (hfuel : labels.length + 1 < fuel) :
    ∀ recs : List AFields, ∃ rrs,
      parseResourceRecords fuel fullMessage ((recs.map (compressedARecord 12)).flatten ++ tail)
        recs.length = .ok (rrs, tail) ∧ rrs.length = recs.length ∧
      ∀ rr ∈ rrs, rr.Name = dottedName labels
  | [] => ⟨[], by simp [parseResourceRecords]⟩
  | f :: fs => by
    obtain ⟨rrs, hrrs, hl, hn⟩ :=
      parseResourceRecords_compressedA fuel fullMessage labels after tail hlen hfull hfuel fs
    have h1 := parseResourceRecord_compressedA fuel fullMessage labels after f
      ((fs.map (compressedARecord 12)).flatten ++ tail) hlen hfull hfuel
    refine ⟨{ Name := dottedName labels, RType := TypeA, Class := Uint16 f.class0 f.class1,
               TTL := Uint32 f.ttl0 f.ttl1 f.ttl2 f.ttl3, RDLength := 4,
               RData := .A [f.a0, f.a1, f.a2, f.a3] } :: rrs, ?_, by simp [hl], ?_⟩
    · simp only [List.map_cons, List.flatten_cons, List.append_assoc, List.length_cons,
        parseResourceRecords]
      rw [h1]
      simp [hrrs]
    · intro rr hrr
      rcases List.mem_cons.mp hrr with h | h
      · rw [h]
      · exact hn rr h

/-- C3: a message made of a twelve-octet header with QDCOUNT 1, ANCOUNT n and NSCOUNT,
ARCOUNT 0, one question whose name is written uncompressed at offset 12 with labels of
1 to 63 octets, and n address records with RDLENGTH 4 owned by the two-octet pointer to
offset 12, is decoded by parseMessage: the result has exactly n answers and the Name of
every answer equals the QName of the question. -/
theorem parseMessage_compressedMessage (h0 h1 h2 h3 : Nat) (labels : List (List Nat))
    (qtype0 qtype1 qclass0 qclass1 : Nat) (recs : List AFields) (fuel : Nat)
    (hlen : ∀ l ∈ labels, 1 ≤ l.length ∧ l.length ≤ 63)
    (_hn : recs.length < 65536) (hfuel : labels.length + 1 < fuel) :
    ∃ m q, parseMessage fuel
        (compressedMessage h0 h1 h2 h3 labels qtype0 qtype1 qclass0 qclass1 recs) = .ok m ∧
      m.Header.QDCount = 1 ∧ m.Header.ANCount = recs.length ∧
      m.Header.NSCount = 0 ∧ m.Header.ARCount = 0 ∧
      m.Question = [q] ∧ q.QName = dottedName labels ∧
      m.Answer.length = recs.length ∧ ∀ rr ∈ m.Answer, rr.Name = q.QName := by
  have hlt : ¬ (compressedMessage h0 h1 h2 h3 labels qtype0 qtype1 qclass0 qclass1 recs).length
      < headerSizeBytes := by
    simp [compressedMessage, headerSizeBytes]
  have htake : (compressedMessage h0 h1 h2 h3 labels qtype0 qtype1 qclass0 qclass1 recs).take
      headerSizeBytes
      = [h0, h1, h2, h3, 0, 1, recs.length / 256, recs.length % 256, 0, 0, 0, 0] := by
    simp [compressedMessage, headerSizeBytes]
  have hdrop : (compressedMessage h0 h1 h2 h3 labels qtype0 qtype1 qclass0 qclass1 recs).drop
      headerSizeBytes
      = labelOctets labels ++ 0 :: ([qtype0, qtype1, qclass0, qclass1]
          ++ ((recs.map (compressedARecord 12)).flatten ++ [])) := by
    simp [compressedMessage, headerSizeBytes]
  have hfull : ([h0, h1, (h2 <<< 1) % 256, h3, 0, 1, recs.length / 256, recs.length % 256,
        0, 0, 0, 0] ++ (labelOctets labels ++ 0 :: ([qtype0, qtype1, qclass0, qclass1]
          ++ ((recs.map (compressedARecord 12)).flatten ++ [])))).drop 12
      = labelOctets labels ++ 0 :: ([qtype0, qtype1, qclass0, qclass1]
          ++ ((recs.map (compressedARecord 12)).flatten ++ [])) := by
    simp
  obtain ⟨rrs, hrrs, hl, hnames⟩ := parseResourceRecords_compressedA fuel _ labels _ []
    hlen hfull hfuel recs
  have hq := parseDomainName_uncompressed
    ([h0, h1, (h2 <<< 1) % 256, h3, 0, 1, recs.length / 256, recs.length % 256,
        0, 0, 0, 0] ++ (labelOctets labels ++ 0 :: ([qtype0, qtype1, qclass0, qclass1]
          ++ ((recs.map (compressedARecord 12)).flatten ++ [])))) labels hlen fuel
    ([qtype0, qtype1, qclass0, qclass1] ++ ((recs.map (compressedARecord 12)).flatten ++ []))
    (by omega)
  have key : ∃ hdr, parseMessage fuel
        (compressedMessage h0 h1 h2 h3 labels qtype0 qtype1 qclass0 qclass1 recs)
        = .ok ⟨hdr, [⟨dottedName labels, Uint16 qtype0 qtype1, Uint16 qclass0 qclass1⟩], rrs,
            [], []⟩ ∧
      hdr.QDCount = 1 ∧ hdr.ANCount = recs.length ∧ hdr.NSCount = 0 ∧ hdr.ARCount = 0 := by
    rw [parseMessage, if_neg hlt, htake, parseMessageHeader_twelve, hdrop]
    simp only [List.cons_append, List.nil_append] at hq hrrs
    simp only [Uint16_div_mod, show Uint16 0 1 = 1 from rfl, show Uint16 0 0 = 0 from rfl,
      parseQuestions, parseQuestion, hq, Outcome.bind_ok, readUint16, List.cons_append,
      List.nil_append, hrrs, parseResourceRecords]
    exact ⟨_, rfl, rfl, rfl, rfl, rfl⟩
  obtain ⟨hdr, hpm, hqd, han, hns, har⟩ := key
  exact ⟨_, _, hpm, hqd, han, hns, har, rfl, rfl, hl, hnames⟩

theorem parseMessage_compressedMessage_witness :
    ∃ m q, parseMessage 5 (compressedMessage 4 210 129 128 [octets "www", octets "google",
        octets "com"] 0 1 0 1 [⟨0, 1, 0, 0, 1, 44, 192, 0, 2, 1⟩, ⟨0, 1, 0, 0, 1, 44, 192, 0, 2, 2⟩])
        = .ok m ∧
      m.Header.QDCount = 1 ∧ m.Header.ANCount = 2 ∧
      m.Header.NSCount = 0 ∧ m.Header.ARCount = 0 ∧
      m.Question = [q] ∧ q.QName = dottedName [octets "www", octets "google", octets "com"] ∧
      m.Answer.length = 2 ∧ ∀ rr ∈ m.Answer, rr.Name = q.QName :=
  parseMessage_compressedMessage 4 210 129 128 [octets "www", octets "google", octets "com"]
    0 1 0 1 [⟨0, 1, 0, 0, 1, 44, 192, 0, 2, 1⟩, ⟨0, 1, 0, 0, 1, 44, 192, 0, 2, 2⟩] 5
    (by decide) (by decide) (by decide)

/-- The message of the repository test is an instance of compressedMessage. -/
theorem createCompressedMessage_eq :
    createCompressedMessage = compressedMessage 4 210 129 128
      [octets "www", octets "google", octets "com"] 0 1 0 1
      [⟨0, 1, 0, 0, 1, 44, 192, 0, 2, 1⟩, ⟨0, 1, 0, 0, 1, 44, 192, 0, 2, 2⟩] := by
  decide

/-! ## C4 : section lengths equal the counts of the header -/

theorem parseResourceRecords_length (fuel : Nat) (fullMessage : List Nat) :
    ∀ (numRecords : Nat) (messageBytes : List Nat) (rrs : List ResourceRecord)
      (rest : List Nat),
      parseResourceRecords fuel fullMessage messageBytes numRecords = .ok (rrs, rest) →
      rrs.length = numRecords
  | 0, messageBytes, rrs, rest, h => by
    simp only [parseResourceRecords, Outcome.ok.injEq, Prod.mk.injEq] at h
    rw [← h.1]
    rfl
  | n + 1, messageBytes, rrs, rest, h => by
    rw [parseResourceRecords] at h
    obtain ⟨⟨rr, bytes1⟩, _, h1⟩ := Outcome.bind_eq_ok h
    obtain ⟨⟨rrs1, bytes2⟩, h2, h3⟩ := Outcome.bind_eq_ok h1
    simp only [Outcome.ok.injEq, Prod.mk.injEq] at h3
    rw [← h3.1, List.length_cons, parseResourceRecords_length fuel fullMessage n bytes1 rrs1
      bytes2 h2]

theorem parseQuestions_length (fuel : Nat) (fullMessage : List Nat) :
    ∀ (numQuestions : Nat) (messageBytes : List Nat) (qs : List QuestionEntry)
      (rest : List Nat),
      parseQuestions fuel fullMessage messageBytes numQuestions = .ok (qs, rest) →
      qs.length = numQuestions
  | 0, messageBytes, qs, rest, h => by
    simp only [parseQuestions, Outcome.ok.injEq, Prod.mk.injEq] at h
    rw [← h.1]
    rfl
  | n + 1, messageBytes, qs, rest, h => by
    rw [parseQuestions] at h
    obtain ⟨⟨q, bytes1⟩, _, h1⟩ := Outcome.bind_eq_ok h
    obtain ⟨⟨qs1, bytes2⟩, h2, h3⟩ := Outcome.bind_eq_ok h1
    simp only [Outcome.ok.injEq, Prod.mk.injEq] at h3
    rw [← h3.1, List.length_cons, parseQuestions_length fuel fullMessage n bytes1 qs1 bytes2 h2]

/-- C4: whenever parseMessage returns a Message, the lengths of its Question, Answer,
Authority and Additional sections equal the QDCount, ANCount, NSCount and ARCount of the
returned header (a count of 0 giving an empty section). -/
theorem parseMessage_section_counts (fuel : Nat) (messageBytes : List Nat) (m : Message)
    (h : parseMessage fuel messageBytes = .ok m) :
    m.Question.length = m.Header.QDCount ∧ m.Answer.length = m.Header.ANCount ∧
      m.Authority.length = m.Header.NSCount ∧ m.Additional.length = m.Header.ARCount := by
  rw [parseMessage] at h
  split at h
  · simp at h
  · split at h
    · rename_i header headerBytes _
      obtain ⟨⟨qs, b1⟩, hq, h1⟩ := Outcome.bind_eq_ok h
      obtain ⟨⟨an, b2⟩, han, h2⟩ := Outcome.bind_eq_ok h1
      obtain ⟨⟨ns, b3⟩, hns, h3⟩ := Outcome.bind_eq_ok h2
      obtain ⟨⟨ar, b4⟩, har, h4⟩ := Outcome.bind_eq_ok h3
      simp only [Outcome.ok.injEq] at h4
      rw [← h4]
      exact ⟨parseQuestions_length _ _ _ _ _ _ hq, parseResourceRecords_length _ _ _ _ _ _ han,
        parseResourceRecords_length _ _ _ _ _ _ hns, parseResourceRecords_length _ _ _ _ _ _ har⟩
    · simp at h
    · simp at h
    · simp at h

theorem parseMessage_section_counts_witness :
    parseMessage 3 createTestMessage = .ok createTestMessageParsed ∧
      createTestMessageParsed.Question.length = createTestMessageParsed.Header.QDCount ∧
      createTestMessageParsed.Answer.length = createTestMessageParsed.Header.ANCount ∧
      createTestMessageParsed.Authority.length = createTestMessageParsed.Header.NSCount ∧
      createTestMessageParsed.Additional.length = createTestMessageParsed.Header.ARCount :=
  ⟨by decide, parseMessage_section_counts 3 createTestMessage createTestMessageParsed
    (by decide)⟩

/-! ## C5 : the cursor after a nameserver record -/

/-- The NS case of the switch, on RDATA that is exactly an uncompressed name: the
cursor handed back is what remains of the RDATA copy after the name, that is nothing,
whatever octets follow the record in the message. -/
theorem parseRData_NS_cursor (fuel : Nat) (fullMessage : List Nat) (labels : List (List Nat))
    (next : List Nat) (hlen : ∀ l ∈ labels, 1 ≤ l.length ∧ l.length ≤ 63)
    (hfuel : labels.length < fuel) :
    parseRData fuel fullMessage ((labelOctets labels ++ [0]) ++ next) TypeNS
        (labelOctets labels ++ [0]).length
      = .ok (.NS (dottedName labels), []) := by
  have hp := parseDomainName_uncompressed fullMessage labels hlen fuel [] hfuel
  simp only [parseRData, readBytes_append, Outcome.bind_ok, show TypeNS ≠ TypeA from by decide,
    show TypeNS ≠ TypeAAAA from by decide, show TypeNS ≠ TypeCNAME from by decide,
    show TypeNS ≠ TypeMX from by decide, if_false, if_true, hp]

/-- The MX case of the switch behaves alike: with RDATA made of the two octets of the
preference and an uncompressed name, the cursor handed back is empty. -/
theorem parseRData_MX_cursor (fuel : Nat) (fullMessage : List Nat) (p0 p1 : Nat)
    (labels : List (List Nat)) (next : List Nat)
    (hlen : ∀ l ∈ labels, 1 ≤ l.length ∧ l.length ≤ 63) (hfuel : labels.length < fuel) :
    parseRData fuel fullMessage ((p0 :: p1 :: (labelOctets labels ++ [0])) ++ next) TypeMX
        (p0 :: p1 :: (labelOctets labels ++ [0])).length
      = .ok (.MX (Uint16 p0 p1) (dottedName labels), []) := by
  have hp := parseDomainName_uncompressed fullMessage labels hlen fuel [] hfuel
  simp only [parseRData, readBytes_append, Outcome.bind_ok, show TypeMX ≠ TypeA from by decide,
    show TypeMX ≠ TypeAAAA from by decide, show TypeMX ≠ TypeCNAME from by decide,
    if_false, if_true, readUint16, hp]

/-- The loop body faults or runs out of budget when the cursor is at the end of the
buffer: it never returns a record. -/
theorem parseResourceRecord_nil (fuel : Nat) (fullMessage : List Nat)
    (r : ResourceRecord × List Nat) : parseResourceRecord fuel fullMessage [] ≠ .ok r := by
  intro h
  obtain ⟨a, ha, _⟩ := Outcome.bind_eq_ok h
  exact parseDomainNameLoop_nil_ne_ok _ _ _ _ ha

/-- C5, evaluation of the code: the referral with one NS record decodes, and the
referral with two well-formed NS records makes parseMessage fault at the second
record, for every budget that lets the names be decoded; the claim has it decode to two
records carrying their nameserver names. -/
theorem parseMessage_twoNSMessage_fault :
    (∀ k, parseMessage (k + 3) oneNSMessage
      = .ok { Header := { ID := 1234, QR := true, OPCode := 0, AA := false, TC := false,
                          RD := false, RA := false, RCode := 0, QDCount := 1, ANCount := 0,
                          NSCount := 1, ARCount := 0 },
              Question := [{ QName := octets "com.", QType := QTypeA, QClass := QClassIN }],
              Answer := [],
              Authority := [{ Name := octets "com.", RType := TypeNS, Class := ClassIN,
                              TTL := 60, RDLength := 6, RData := .NS (octets "a.ns.") }],
              Additional := [] }) ∧
    (∀ k, parseMessage (k + 3) twoNSMessage = .fault) :=
  ⟨fun _ => rfl, fun _ => rfl⟩

/-! ## C6 : the offset computed for a pointer -/

set_option maxRecDepth 100000 in
/-- C6, evaluation of the code: for the pointer C1 00 that writeCompressedName writes
for offset 256 the code computes offset 4, where the 14-bit value is 256; on
pointerDemoMessage the pointer at offset 259 therefore decodes to the name "x." stored
at offset 4 and not to the name "y." stored at offset 256. -/
theorem pointerOffset_above_255 :
    writeCompressedName 256 = [0xC1, 0x00] ∧
    pointerOffset 0xC1 0x00 = 4 ∧
    (0xC1 &&& 0x3F) * 256 + 0x00 = 256 ∧
    parseDomainName 3 pointerDemoMessage (pointerDemoMessage.drop 259)
      = .ok (octets "x.", []) ∧
    parseDomainName 3 pointerDemoMessage (pointerDemoMessage.drop 256)
      = .ok (octets "y.", [0xC1, 0x00]) := by
  decide

set_option maxRecDepth 100000 in
theorem pointer_low_bits : ∀ b < 256, 192 ≤ b → b &&& 0x3F = b - 192 := by decide

/-- Where the computed offset and the 14-bit value agree: exactly when the low six bits
of the first octet are zero, that is for offsets below 256. -/
theorem pointerOffset_eq_iff (b0 b1 : Nat) (h0 : 192 ≤ b0) (h0u : b0 < 256) (h1 : b1 < 256) :
    pointerOffset b0 b1 = (b0 &&& 0x3F) * 256 + b1 ↔ b0 = 192 := by
  have hand : b0 &&& 0x3F = b0 - 192 := by
    exact pointer_low_bits b0 h0u h0
  rw [pointerOffset, hand, Nat.shiftLeft_eq]
  omega

/-! ## C7 : pointers that do not point backwards -/

theorem parseDomainNameLoop_self_pointer :
    ∀ (fuel : Nat) (domainName : List Nat),
      parseDomainNameLoop fuel [192, 0] [192, 0] domainName = .outOfFuel
  | 0, _ => rfl
  | fuel + 1, domainName => by
    have ih := parseDomainNameLoop_self_pointer fuel []
    have hp : pointerOffset 192 0 = 0 := by decide
    have hc : isCompressed 192 = true := by decide
    simp [parseDomainNameLoop, hp, hc, ih]

set_option maxRecDepth 100000 in
theorem isCompressed_marker : ∀ b < 256, 192 ≤ b → isCompressed b = true := by decide

/-- C7, counterexample: on the two-octet message C0 00, whose pointer at position 0
references offset 0, parseDomainName never returns, whatever the budget; on the message
C0 02 01 61 00, whose pointer at position 0 references the later offset 2,
parseDomainName returns the name "a." and rejects nothing. -/
theorem parseDomainName_pointer_not_rejected :
    (∀ fuel, parseDomainName fuel [192, 0] [192, 0] = .outOfFuel) ∧
    parseDomainName 3 [192, 2, 1, 97, 0] [192, 2, 1, 97, 0] = .ok (octets "a.", [1, 97, 0]) :=
  ⟨fun fuel => parseDomainNameLoop_self_pointer fuel [], by decide⟩

/-- A pointer that references an offset below 256 has 0xC0 as first octet, and the
offset the decoder computes for it is the referenced one. -/
theorem pointerOffset_referenced (b0 b1 : Nat) (hb0 : 192 ≤ b0 ∧ b0 < 256) (hb1 : b1 < 256)
    (hlow : referencedOffset b0 b1 < 256) :
    pointerOffset b0 b1 = referencedOffset b0 b1 := by
  have hand := pointer_low_bits b0 hb0.2 hb0.1
  rw [referencedOffset, hand] at hlow ⊢
  have h192 : b0 = 192 := by omega
  subst h192
  rw [pointerOffset]
  simp only [Nat.shiftLeft_eq]
  omega

/-- C7 as amended: parseDomainName does not compare the offset that a pointer
references with the position of the pointer, and it has no error result.  When the
pointer at position p of the message references an offset at or after p and below 256
(the 14-bit value of its two octets) where an uncompressed name lies (labels of 1 to 63
octets and the zero octet), parseDomainName terminates and returns that name, with the
cursor two octets past the pointer. -/
theorem parseDomainName_forward_pointer (pre post : List Nat) (b0 b1 : Nat)
    (labels : List (List Nat)) (tail : List Nat) (fuel : Nat)
    (hb0 : 192 ≤ b0 ∧ b0 < 256) (hb1 : b1 < 256)
    (_hfwd : pre.length ≤ referencedOffset b0 b1) (hlow : referencedOffset b0 b1 < 256)
    (hlen : ∀ l ∈ labels, 1 ≤ l.length ∧ l.length ≤ 63)
    (htarget : (pre ++ b0 :: b1 :: post).drop (referencedOffset b0 b1)
      = labelOctets labels ++ 0 :: tail)
    (hfuel : labels.length + 1 < fuel) :
    parseDomainName fuel (pre ++ b0 :: b1 :: post) ((pre ++ b0 :: b1 :: post).drop pre.length)
      = .ok (dottedName labels, post) := by
  obtain ⟨k, rfl⟩ : ∃ k, fuel = k + 1 := ⟨fuel - 1, by omega⟩
  have hoff := pointerOffset_referenced b0 b1 hb0 hb1 hlow
  have ht : parseDomainName k (pre ++ b0 :: b1 :: post)
      ((pre ++ b0 :: b1 :: post).drop (pointerOffset b0 b1)) = .ok (dottedName labels, tail) := by
    rw [hoff, htarget]
    exact parseDomainName_uncompressed _ labels hlen k tail (by omega)
  have hp := parseDomainNameLoop_pointer k (pre ++ b0 :: b1 :: post) b0 b1 post []
    (dottedName labels) tail (isCompressed_marker b0 hb0.2 hb0.1) ht
  rw [List.drop_left, parseDomainName, hp]
  rfl

theorem parseDomainName_forward_pointer_witness :
    parseDomainName 3 ([] ++ 192 :: 2 :: [1, 97, 0]) (([] ++ 192 :: 2 :: [1, 97, 0]).drop 0)
      = .ok (dottedName [[97]], [1, 97, 0]) :=
  parseDomainName_forward_pointer [] [1, 97, 0] 192 2 [[97]] [] 3 (by decide) (by decide)
    (by decide) (by decide) (by decide) (by decide) (by decide)

/-! ## C8 : the cursor after a pointer -/

/-- The cursor after a pointer whose target decodes at the offset the decoder computes
for it: parseDomainName returns the labels followed by the name found there, and the
remaining octets are those that start two octets after the first octet of the pointer
at the original cursor, whatever is left after the target.  The budget needed is the
one that decodes the target, one unit for the pointer and one per label. -/
theorem parseDomainName_cursor_computed_offset (fuel fuel1 : Nat) (fullMessage : List Nat)
    (labels : List (List Nat)) (b0 b1 : Nat) (rest target r : List Nat)
    (hlen : ∀ l ∈ labels, 1 ≤ l.length ∧ l.length ≤ 63)
    (hb0 : 192 ≤ b0 ∧ b0 < 256)
    (ht : parseDomainName fuel fullMessage (fullMessage.drop (pointerOffset b0 b1))
      = .ok (target, r))
    (hfuel : fuel + 1 + labels.length ≤ fuel1) :
    parseDomainName fuel1 fullMessage (labelOctets labels ++ b0 :: b1 :: rest)
      = .ok (dottedName labels ++ target,
          (labelOctets labels ++ b0 :: b1 :: rest).drop ((labelOctets labels).length + 2)) := by
  have hp := parseDomainNameLoop_pointer fuel fullMessage b0 b1 rest ([] ++ dottedName labels)
    target r (isCompressed_marker b0 hb0.2 hb0.1) ht
  have hd : (labelOctets labels ++ b0 :: b1 :: rest).drop ((labelOctets labels).length + 2)
      = rest := by
    rw [← List.drop_drop, List.drop_left]
    rfl
  apply parseDomainName_mono (fuel + 1 + labels.length) fuel1 _ _ _ hfuel
  rw [parseDomainName, parseDomainNameLoop_labels fullMessage labels hlen, hp, hd]
  rfl

/-- The cursor after a pointer that references an offset below 256 at which a name
decodes: the k labels and the two octets of the pointer are consumed. -/
theorem parseDomainName_cursor_low_offset (fuel fuel1 : Nat) (fullMessage : List Nat)
    (labels : List (List Nat)) (b0 b1 : Nat) (rest target r : List Nat)
    (hlen : ∀ l ∈ labels, 1 ≤ l.length ∧ l.length ≤ 63)
    (hb0 : 192 ≤ b0 ∧ b0 < 256) (hb1 : b1 < 256) (hlow : referencedOffset b0 b1 < 256)
    (ht : parseDomainName fuel fullMessage (fullMessage.drop (referencedOffset b0 b1))
      = .ok (target, r))
    (hfuel : fuel + 1 + labels.length ≤ fuel1) :
    parseDomainName fuel1 fullMessage (labelOctets labels ++ b0 :: b1 :: rest)
      = .ok (dottedName labels ++ target,
          (labelOctets labels ++ b0 :: b1 :: rest).drop ((labelOctets labels).length + 2)) := by
  rw [← pointerOffset_referenced b0 b1 hb0 hb1 hlow] at ht
  exact parseDomainName_cursor_computed_offset fuel fuel1 fullMessage labels b0 b1 rest target r
    hlen hb0 ht hfuel

theorem parseDomainName_cursor_example :
    parseDomainName 7 createCompressedMessage
        (labelOctets [octets "ftp"] ++ 192 :: 16 :: [9, 9])
      = .ok (dottedName [octets "ftp"] ++ octets "google.com.",
          (labelOctets [octets "ftp"] ++ 192 :: 16 :: [9, 9]).drop
            ((labelOctets [octets "ftp"]).length + 2)) :=
  parseDomainName_cursor_low_offset 3 7 createCompressedMessage [octets "ftp"] 192 16 [9, 9]
    (octets "google.com.") ([0, 1, 0, 1] ++ createCompressedMessage.drop 32)
    (by decide) (by decide) (by decide) (by decide) (by decide) (by decide)

set_option maxRecDepth 100000 in
/-- C8, evaluation of the code: in cursorDemoMessage the name at the cursor is the
single pointer C1 00 at offset 261, which references offset 256, where the name "y."
decodes.  The code computes offset 4 for the pointer, runs through the five labels that
it finds there and reaches the end of the buffer, where reading the next length octet
is the run-time fault: the call returns neither a name nor a cursor, whatever the
budget, where the claim has it return with the cursor two octets past the pointer. -/
theorem parseDomainName_cursor_fault :
    cursorDemoMessage.length = 263 ∧
    cursorDemoMessage.drop 261 = writeCompressedName 256 ∧
    referencedOffset 0xC1 0x00 = 256 ∧
    parseDomainName 2 cursorDemoMessage (cursorDemoMessage.drop 256)
      = .ok (octets "y.", cursorDemoMessage.drop 259) ∧
    pointerOffset 0xC1 0x00 = 4 ∧
    (∀ k, parseDomainName (k + 7) cursorDemoMessage (cursorDemoMessage.drop 261) = .fault) :=
  ⟨by decide, by decide, by decide, by decide, by decide, fun _ => rfl⟩

/-! ## C9 : record types without a case in the switch -/

/-- For a type that is none of A, AAAA, CNAME, MX, NS, TXT the switch does nothing: the
payload stays nil and the cursor stays at the first octet of the RDATA. -/
theorem parseRData_unrecognized (fuel : Nat) (fullMessage messageBytes : List Nat)
    (type rdLength : Nat) (hA : type ≠ TypeA) (hAAAA : type ≠ TypeAAAA)
    (hCNAME : type ≠ TypeCNAME) (hMX : type ≠ TypeMX) (hNS : type ≠ TypeNS)
    (hTXT : type ≠ TypeTXT) :
    parseRData fuel fullMessage messageBytes type rdLength = .ok (.none, messageBytes) := by
  simp [parseRData, hA, hAAAA, hCNAME, hMX, hNS, hTXT]

/-- C9, evaluation of the code: in a section made of a PTR record with three octets
of RDATA followed by an A record, the PTR record is neither rejected nor skipped: the
cursor stays on its RDATA, and the second record is decoded from the RDATA of the first
(its Name is the name "a." stored there, its Type is 0), where the claim has the second
record decoded from the octet after the payload. -/
theorem parseResourceRecords_ptrThenARecords :
    parseResourceRecords 3 ptrThenARecords ptrThenARecords 1
      = .ok ([{ Name := [], RType := TypePTR, Class := ClassIN, TTL := 0, RDLength := 3,
                RData := .none }], ptrThenARecords.drop 11) ∧
    parseResourceRecords 3 ptrThenARecords ptrThenARecords 2
      = .ok ([{ Name := [], RType := TypePTR, Class := ClassIN, TTL := 0, RDLength := 3,
                RData := .none },
              { Name := octets "a.", RType := 0, Class := 256, TTL := 16777216, RDLength := 0,
                RData := .none }], [4, 1, 2, 3, 4]) ∧
    parseResourceRecords 3 ptrThenARecords (ptrThenARecords.drop (11 + 3)) 1
      = .ok ([{ Name := [], RType := TypeA, Class := ClassIN, TTL := 0, RDLength := 4,
                RData := .A [1, 2, 3, 4] }], []) := by
  decide

/-! ## C10 : the cursor after a payload decoded in place -/

theorem readUint16_eq_ok {bytes rest : List Nat} {v : Nat}
    (h : readUint16 bytes = .ok (v, rest)) :
    ∃ b0 b1, bytes = b0 :: b1 :: rest ∧ v = Uint16 b0 b1 := by
  match bytes, h with
  | b0 :: b1 :: tl, h =>
    simp only [readUint16, Outcome.ok.injEq, Prod.mk.injEq] at h
    exact ⟨b0, b1, by rw [h.2], h.1.symm⟩
  | [], h => simp [readUint16] at h
  | [_], h => simp [readUint16] at h

theorem readUint32_eq_ok {bytes rest : List Nat} {v : Nat}
    (h : readUint32 bytes = .ok (v, rest)) :
    ∃ b0 b1 b2 b3, bytes = b0 :: b1 :: b2 :: b3 :: rest := by
  match bytes, h with
  | b0 :: b1 :: b2 :: b3 :: tl, h =>
    simp only [readUint32, Outcome.ok.injEq, Prod.mk.injEq] at h
    exact ⟨b0, b1, b2, b3, by rw [h.2]⟩
  | [], h => simp [readUint32] at h
  | [_], h => simp [readUint32] at h
  | [_, _], h => simp [readUint32] at h
  | [_, _, _], h => simp [readUint32] at h

theorem readBytes_eq_ok {n : Nat} {bytes taken rest : List Nat}
    (h : readBytes n bytes = .ok (taken, rest)) :
    n ≤ bytes.length ∧ taken = bytes.take n ∧ rest = bytes.drop n := by
  rw [readBytes] at h
  split at h
  · simp at h
  · simp only [Outcome.ok.injEq, Prod.mk.injEq] at h
    exact ⟨by omega, h.1.symm, h.2.symm⟩

/-- The loop body taken apart: the name, the ten octets of the fixed fields, and the
switch run on what follows them. -/
theorem parseResourceRecord_eq_ok {fuel : Nat} {fullMessage messageBytes : List Nat}
    {rr : ResourceRecord} {rest : List Nat}
    (h : parseResourceRecord fuel fullMessage messageBytes = .ok (rr, rest)) :
    ∃ afterName payload, parseDomainName fuel fullMessage messageBytes = .ok (rr.Name, afterName) ∧
      payload = afterName.drop 10 ∧
      parseRData fuel fullMessage payload rr.RType rr.RDLength = .ok (rr.RData, rest) := by
  rw [parseResourceRecord] at h
  obtain ⟨⟨name, b1⟩, hname, h1⟩ := Outcome.bind_eq_ok h
  obtain ⟨⟨type, b2⟩, htype, h2⟩ := Outcome.bind_eq_ok h1
  obtain ⟨⟨cls, b3⟩, hcls, h3⟩ := Outcome.bind_eq_ok h2
  obtain ⟨⟨ttl, b4⟩, httl, h4⟩ := Outcome.bind_eq_ok h3
  obtain ⟨⟨rdl, b5⟩, hrdl, h5⟩ := Outcome.bind_eq_ok h4
  obtain ⟨⟨rdata, b6⟩, hrdata, h6⟩ := Outcome.bind_eq_ok h5
  clear h h1 h2 h3 h4 h5
  obtain ⟨t0, t1, rfl, _⟩ := readUint16_eq_ok htype
  obtain ⟨c0, c1, rfl, _⟩ := readUint16_eq_ok hcls
  obtain ⟨q0, q1, q2, q3, rfl⟩ := readUint32_eq_ok httl
  obtain ⟨r0, r1, rfl, _⟩ := readUint16_eq_ok hrdl
  simp only [Outcome.ok.injEq, Prod.mk.injEq] at h6
  obtain ⟨hrr, rfl⟩ := h6
  subst hrr
  exact ⟨_, b5, hname, rfl, hrdata⟩

/-- C10, counterexample: the A record of longARecord declares RDLENGTH 6; the code
decodes it and leaves the cursor four octets past the RDLENGTH field, on the octets
5 6 7, while six octets past that field only the octet 7 remains. -/
theorem parseResourceRecord_longARecord :
    parseResourceRecord 1 longARecord longARecord
      = .ok ({ Name := [], RType := TypeA, Class := ClassIN, TTL := 0, RDLength := 6,
               RData := .A [1, 2, 3, 4] }, [5, 6, 7]) ∧
    (longARecord.drop 11).drop 6 = [7] := by
  decide

/-- C10 as amended: for every record of type A, AAAA or TXT that the loop body of
parseResourceRecords decodes, the cursor after the record is past the end of the
RDLength field (ten octets after the owner name) by exactly 4 octets for A, 16 octets
for AAAA and RDLength octets for TXT; for A and AAAA this is RDLength octets exactly
when RDLength is 4, respectively 16. -/
theorem parseResourceRecord_inplace_cursor (fuel : Nat) (fullMessage messageBytes : List Nat)
    (rr : ResourceRecord) (rest : List Nat)
    (h : parseResourceRecord fuel fullMessage messageBytes = .ok (rr, rest)) :
    ∃ afterName, parseDomainName fuel fullMessage messageBytes = .ok (rr.Name, afterName) ∧
      (rr.RType = TypeA → rest = (afterName.drop 10).drop 4 ∧ 4 ≤ (afterName.drop 10).length) ∧
      (rr.RType = TypeAAAA →
        rest = (afterName.drop 10).drop 16 ∧ 16 ≤ (afterName.drop 10).length) ∧
      (rr.RType = TypeTXT →
        rest = (afterName.drop 10).drop rr.RDLength ∧
          rr.RDLength ≤ (afterName.drop 10).length) := by
  obtain ⟨afterName, payload, hname, rfl, hrdata⟩ := parseResourceRecord_eq_ok h
  refine ⟨afterName, hname, ?_, ?_, ?_⟩
  · intro ht
    rw [ht, parseRData, if_pos rfl] at hrdata
    obtain ⟨⟨ip, b⟩, hread, hok⟩ := Outcome.bind_eq_ok hrdata
    obtain ⟨hle, _, hb⟩ := readBytes_eq_ok hread
    simp only [Outcome.ok.injEq, Prod.mk.injEq] at hok
    exact ⟨by rw [← hok.2, hb], hle⟩
  · intro ht
    rw [ht, parseRData, if_neg (by decide), if_pos rfl] at hrdata
    obtain ⟨⟨ip, b⟩, hread, hok⟩ := Outcome.bind_eq_ok hrdata
    obtain ⟨hle, _, hb⟩ := readBytes_eq_ok hread
    simp only [Outcome.ok.injEq, Prod.mk.injEq] at hok
    exact ⟨by rw [← hok.2, hb], hle⟩
  · intro ht
    rw [ht, parseRData, if_neg (by decide), if_neg (by decide), if_neg (by decide),
      if_neg (by decide), if_neg (by decide), if_pos rfl] at hrdata
    obtain ⟨⟨txt, b⟩, hread, hok⟩ := Outcome.bind_eq_ok hrdata
    obtain ⟨hle, _, hb⟩ := readBytes_eq_ok hread
    simp only [Outcome.ok.injEq, Prod.mk.injEq] at hok
    exact ⟨by rw [← hok.2, hb], hle⟩

theorem parseResourceRecord_inplace_cursor_witness :
    ∃ afterName, parseDomainName 1 longARecord longARecord = .ok ([], afterName) ∧
      (TypeA = TypeA → [5, 6, 7] = (afterName.drop 10).drop 4 ∧ 4 ≤ (afterName.drop 10).length) ∧
      (TypeA = TypeAAAA →
        [5, 6, 7] = (afterName.drop 10).drop 16 ∧ 16 ≤ (afterName.drop 10).length) ∧
      (TypeA = TypeTXT →
        [5, 6, 7] = (afterName.drop 10).drop 6 ∧ 6 ≤ (afterName.drop 10).length) :=
  parseResourceRecord_inplace_cursor 1 longARecord longARecord
    { Name := [], RType := TypeA, Class := ClassIN, TTL := 0, RDLength := 6,
      RData := .A [1, 2, 3, 4] } [5, 6, 7] (by decide)

/-! ## C11 : inputs shorter than the header -/

/-- On an input shorter than twelve octets parseMessage faults: the slice expression
messageBytes[headerSizeBytes:] is out of range, and the length test of
parseMessageHeader is never the one that answers. -/
theorem parseMessage_short (fuel : Nat) (messageBytes : List Nat)
    (h : messageBytes.length < 12) : parseMessage fuel messageBytes = .fault := by
  rw [parseMessage, if_pos (by simpa [headerSizeBytes] using h)]

/-- C11, evaluation of the code: on the empty input and on the first eleven octets of
the test message parseMessage aborts with the run-time fault, whatever the budget,
where the claim has it return the malformed-header error; parseMessageHeader called
directly on the same eleven octets does return that error. -/
theorem parseMessage_short_input_fault :
    (∀ fuel, parseMessage fuel [] = .fault) ∧
    (∀ fuel, parseMessage fuel (createTestMessage.take 11) = .fault) ∧
    parseMessageHeader (createTestMessage.take 11) = .error "expected header to be 12 bytes" :=
  ⟨fun _ => rfl, fun _ => rfl, by decide⟩

/-! ## C12 : truncated input -/

theorem Outcome.bind_ne_error {α β : Type} {x : Outcome α} {f : α → Outcome β}
    (hx : ∀ e, x ≠ .error e) (hf : ∀ a e, f a ≠ .error e) : ∀ e, x.bind f ≠ .error e := by
  intro e
  cases x with
  | ok a => exact hf a e
  | error e1 => exact absurd rfl (hx e1)
  | fault => simp
  | outOfFuel => simp

theorem readUint16_ne_error (bytes : List Nat) : ∀ e, readUint16 bytes ≠ .error e := by
  intro e
  unfold readUint16
  split <;> simp

theorem readUint32_ne_error (bytes : List Nat) : ∀ e, readUint32 bytes ≠ .error e := by
  intro e
  unfold readUint32
  split <;> simp

theorem readBytes_ne_error (n : Nat) (bytes : List Nat) : ∀ e, readBytes n bytes ≠ .error e := by
  intro e
  rw [readBytes]
  split <;> simp

/-- The name decoder has no error result. -/
theorem parseDomainNameLoop_ne_error :
    ∀ (fuel : Nat) (fullMessage bytes domainName : List Nat) (e : String),
      parseDomainNameLoop fuel fullMessage bytes domainName ≠ .error e
  | 0, _, _, _, _ => by simp [parseDomainNameLoop]
  | fuel + 1, fullMessage, [], domainName, e => by simp [parseDomainNameLoop]
  | fuel + 1, fullMessage, length :: bytes1, domainName, e => by
    by_cases hc : isCompressed length = true
    · match bytes1 with
      | [] => simp [parseDomainNameLoop, hc]
      | b1 :: bytes2 =>
        by_cases hp : pointerOffset length b1 > fullMessage.length
        · simp [parseDomainNameLoop, hc, hp]
        · cases hrec : parseDomainNameLoop fuel fullMessage
              (fullMessage.drop (pointerOffset length b1)) [] with
          | ok v => simp [parseDomainNameLoop, hc, hp, hrec]
          | error e1 => exact absurd hrec (parseDomainNameLoop_ne_error fuel _ _ _ e1)
          | fault => simp [parseDomainNameLoop, hc, hp, hrec]
          | outOfFuel => simp [parseDomainNameLoop, hc, hp, hrec]
    · have hc : isCompressed length = false := by simpa using hc
      by_cases h0 : length = 0
      · subst h0
        rw [parseDomainNameLoop_zero]
        simp
      · by_cases hle : length > bytes1.length
        · simp [parseDomainNameLoop, hc, h0, hle]
        · rw [parseDomainNameLoop_step_label _ _ _ _ _ hc h0 hle]
          exact parseDomainNameLoop_ne_error fuel _ _ _ e

theorem parseDomainName_ne_error (fuel : Nat) (fullMessage bytes : List Nat) :
    ∀ e, parseDomainName fuel fullMessage bytes ≠ .error e :=
  fun e => parseDomainNameLoop_ne_error fuel fullMessage bytes [] e

theorem parseRData_ne_error (fuel : Nat) (fullMessage messageBytes : List Nat)
    (type rdLength : Nat) : ∀ e, parseRData fuel fullMessage messageBytes type rdLength ≠ .error e := by
  rw [parseRData]
  split
  · exact Outcome.bind_ne_error (readBytes_ne_error _ _) (by simp)
  split
  · exact Outcome.bind_ne_error (readBytes_ne_error _ _) (by simp)
  split
  · exact Outcome.bind_ne_error (parseDomainName_ne_error _ _ _) (by simp)
  split
  · exact Outcome.bind_ne_error (readBytes_ne_error _ _) fun _ =>
      Outcome.bind_ne_error (readUint16_ne_error _) fun _ =>
      Outcome.bind_ne_error (parseDomainName_ne_error _ _ _) (by simp)
  split
  · exact Outcome.bind_ne_error (readBytes_ne_error _ _) fun _ =>
      Outcome.bind_ne_error (parseDomainName_ne_error _ _ _) (by simp)
  split
  · exact Outcome.bind_ne_error (readBytes_ne_error _ _) (by simp)
  · simp

theorem parseResourceRecord_ne_error (fuel : Nat) (fullMessage messageBytes : List Nat) :
    ∀ e, parseResourceRecord fuel fullMessage messageBytes ≠ .error e :=
  Outcome.bind_ne_error (parseDomainName_ne_error _ _ _) fun _ =>
  Outcome.bind_ne_error (readUint16_ne_error _) fun _ =>
  Outcome.bind_ne_error (readUint16_ne_error _) fun _ =>
  Outcome.bind_ne_error (readUint32_ne_error _) fun _ =>
  Outcome.bind_ne_error (readUint16_ne_error _) fun _ =>
  Outcome.bind_ne_error (parseRData_ne_error _ _ _ _ _) (by simp)

theorem parseResourceRecords_ne_error (fuel : Nat) (fullMessage : List Nat) :
    ∀ (numRecords : Nat) (messageBytes : List Nat) (e : String),
      parseResourceRecords fuel fullMessage messageBytes numRecords ≠ .error e
  | 0, _, _ => by simp [parseResourceRecords]
  | n + 1, messageBytes, e => by
    rw [parseResourceRecords]
    exact Outcome.bind_ne_error (parseResourceRecord_ne_error _ _ _) (fun _ =>
      Outcome.bind_ne_error (fun e1 => parseResourceRecords_ne_error fuel fullMessage n _ e1)
        (by simp)) e

theorem parseQuestions_ne_error (fuel : Nat) (fullMessage : List Nat) :
    ∀ (numQuestions : Nat) (messageBytes : List Nat) (e : String),
      parseQuestions fuel fullMessage messageBytes numQuestions ≠ .error e
  | 0, _, _ => by simp [parseQuestions]
  | n + 1, messageBytes, e => by
    rw [parseQuestions]
    exact Outcome.bind_ne_error
      (Outcome.bind_ne_error (parseDomainName_ne_error _ _ _) fun _ =>
        Outcome.bind_ne_error (readUint16_ne_error _) fun _ =>
        Outcome.bind_ne_error (readUint16_ne_error _) (by simp))
      (fun _ => Outcome.bind_ne_error
        (fun e1 => parseQuestions_ne_error fuel fullMessage n _ e1) (by simp)) e

/-- The decoder of messages returns no error value on any input: its outcome is a
Message, the run-time fault, or no return at all. -/
theorem parseMessage_ne_error (fuel : Nat) (messageBytes : List Nat) :
    ∀ e, parseMessage fuel messageBytes ≠ .error e := by
  intro e
  by_cases hlt : messageBytes.length < headerSizeBytes
  · rw [parseMessage, if_pos hlt]
    simp
  · have hlen : (messageBytes.take headerSizeBytes).length = 12 := by
      simp [headerSizeBytes] at hlt ⊢
      omega
    match hm : messageBytes.take headerSizeBytes, hlen with
    | [h0, h1, h2, h3, h4, h5, h6, h7, h8, h9, h10, h11], _ =>
      rw [parseMessage, if_neg hlt, hm, parseMessageHeader_twelve]
      exact Outcome.bind_ne_error (fun e1 => parseQuestions_ne_error _ _ _ _ e1) (fun _ =>
        Outcome.bind_ne_error (fun e1 => parseResourceRecords_ne_error _ _ _ _ e1) fun _ =>
        Outcome.bind_ne_error (fun e1 => parseResourceRecords_ne_error _ _ _ _ e1) fun _ =>
        Outcome.bind_ne_error (fun e1 => parseResourceRecords_ne_error _ _ _ _ e1) (by simp)) e

/-- A name cut before its terminating octet: the decoder faults. -/
theorem parseDomainNameLoop_truncated (fullMessage : List Nat) :
    ∀ (labels : List (List Nat)), (∀ l ∈ labels, 1 ≤ l.length ∧ l.length ≤ 63) →
    ∀ (fuel m : Nat) (domainName : List Nat), labels.length < fuel →
      m < (labelOctets labels ++ [0]).length →
      parseDomainNameLoop fuel fullMessage ((labelOctets labels ++ [0]).take m) domainName
        = .fault
  | [], _, fuel, m, domainName, hfuel, hm => by
    obtain ⟨k, rfl⟩ : ∃ k, fuel = k + 1 := ⟨fuel - 1, by simp at hfuel; omega⟩
    have h0 : m = 0 := by simpa [labelOctets] using hm
    subst h0
    simp [parseDomainNameLoop]
  | l :: ls, h, fuel, m, domainName, hfuel, hm => by
    obtain ⟨k, rfl⟩ : ∃ k, fuel = k + 1 := ⟨fuel - 1, by simp at hfuel; omega⟩
    have hl := h l (List.mem_cons_self _ _)
    have hc : isCompressed l.length = false := isCompressed_small _ (by omega)
    have h0 : l.length ≠ 0 := by omega
    have hw : labelOctets (l :: ls) ++ [0] = l.length :: (l ++ (labelOctets ls ++ [0])) := by
      simp [labelOctets]
    rw [hw] at hm ⊢
    cases m with
    | zero => simp [parseDomainNameLoop]
    | succ m1 =>
      rw [List.take_succ_cons]
      by_cases hcut : m1 < l.length
      · have hgt : l.length > ((l ++ (labelOctets ls ++ [0])).take m1).length := by
          rw [List.length_take]
          omega
        simp only [parseDomainNameLoop, hc, h0, hgt, if_true, if_false, Bool.false_eq_true]
      · have ht : (l ++ (labelOctets ls ++ [0])).take m1
            = l ++ (labelOctets ls ++ [0]).take (m1 - l.length) := by
          rw [List.take_append_eq_append_take, List.take_of_length_le (by omega)]
        rw [ht, parseDomainNameLoop_label k fullMessage l _ domainName hl.1 hl.2]
        apply parseDomainNameLoop_truncated fullMessage ls
          (fun x hx => h x (List.mem_cons_of_mem _ hx))
        · simp at hfuel
          omega
        · simp only [List.length_cons, List.length_append] at hm ⊢
          omega

theorem compressedARecord_length (f : AFields) : (compressedARecord 12 f).length = 16 := rfl

theorem compressedARecords_length :
    ∀ recs : List AFields, ((recs.map (compressedARecord 12)).flatten).length = 16 * recs.length
  | [] => rfl
  | f :: fs => by
    rw [List.map_cons, List.flatten_cons, List.length_append, compressedARecord_length,
      compressedARecords_length fs, List.length_cons]
    omega

/-- An answer of the compressedMessage shape cut before its last octet: the loop body
faults. -/
theorem parseResourceRecord_truncated (fuel : Nat) (fullMessage : List Nat)
    (labels : List (List Nat)) (after : List Nat) (f : AFields) (j : Nat)
    (hlen : ∀ l ∈ labels, 1 ≤ l.length ∧ l.length ≤ 63)
    (hfull : fullMessage.drop 12 = labelOctets labels ++ 0 :: after)
    (hfuel : labels.length + 1 < fuel) (hj : j < 16) :
    parseResourceRecord fuel fullMessage ((compressedARecord 12 f).take j) = .fault := by
  obtain ⟨k, rfl⟩ : ∃ k, fuel = k + 1 := ⟨fuel - 1, by omega⟩
  have ht : parseDomainName k fullMessage (fullMessage.drop (pointerOffset 192 12))
      = .ok (dottedName labels, after) := by
    rw [show pointerOffset 192 12 = 12 from by decide, hfull]
    exact parseDomainName_uncompressed fullMessage labels hlen k after (by omega)
  have hp := fun rest => parseDomainNameLoop_pointer k fullMessage 192 12 rest []
    (dottedName labels) after (by decide) ht
  have hw : compressedARecord 12 f = [192, 12, 0, 1, f.class0, f.class1, f.ttl0, f.ttl1,
      f.ttl2, f.ttl3, 0, 4, f.a0, f.a1, f.a2, f.a3] := rfl
  rw [hw, parseResourceRecord, parseDomainName]
  interval_cases j
  · simp [parseDomainNameLoop]
  · simp [parseDomainNameLoop, show isCompressed 192 = true from by decide]
  all_goals
    simp only [List.take_succ_cons, List.take_zero, hp, Outcome.bind_ok, readUint16,
      readUint32, Outcome.bind_fault, parseRData, show Uint16 0 1 = TypeA from rfl, if_true,
      readBytes, List.length_cons, List.length_nil]
  all_goals simp

/-- A question cut before its last octet: the loop body of parseQuestions faults. -/
theorem parseQuestion_truncated (fuel : Nat) (fullMessage : List Nat)
    (labels : List (List Nat)) (q0 q1 q2 q3 m : Nat)
    (hlen : ∀ l ∈ labels, 1 ≤ l.length ∧ l.length ≤ 63) (hfuel : labels.length < fuel)
    (hm : m < ((labelOctets labels ++ [0]) ++ [q0, q1, q2, q3]).length) :
    parseQuestion fuel fullMessage (((labelOctets labels ++ [0]) ++ [q0, q1, q2, q3]).take m)
      = .fault := by
  by_cases hcut : m < (labelOctets labels ++ [0]).length
  · rw [List.take_append_of_le_length (Nat.le_of_lt hcut), parseQuestion, parseDomainName,
      parseDomainNameLoop_truncated fullMessage labels hlen fuel m [] hfuel hcut]
    rfl
  · have ht : ((labelOctets labels ++ [0]) ++ [q0, q1, q2, q3]).take m
        = labelOctets labels ++ 0 :: [q0, q1, q2, q3].take (m - (labelOctets labels ++ [0]).length) := by
      rw [List.take_append_eq_append_take, List.take_of_length_le (by omega)]
      simp
    have hj : m - (labelOctets labels ++ [0]).length < 4 := by
      simp only [List.length_append, List.length_cons, List.length_nil] at hm hcut ⊢
      omega
    rw [ht, parseQuestion, parseDomainName_uncompressed fullMessage labels hlen fuel _ hfuel]
    generalize m - (labelOctets labels ++ [0]).length = j at hj
    interval_cases j <;> simp [readUint16]

/-- A run of answers of the compressedMessage shape cut before its last octet: the loop
of parseResourceRecords faults at the answer that is cut. -/
theorem parseResourceRecords_truncated (fuel : Nat) (fullMessage : List Nat)
    (labels : List (List Nat)) (after : List Nat)
    (hlen : ∀ l ∈ labels, 1 ≤ l.length ∧ l.length ≤ 63)
    (hfull : fullMessage.drop 12 = labelOctets labels ++ 0 :: after)
    (hfuel : labels.length + 1 < fuel) :
    ∀ (recs : List AFields) (j : Nat), j < 16 * recs.length →
      parseResourceRecords fuel fullMessage (((recs.map (compressedARecord 12)).flatten).take j)
        recs.length = .fault
  | [], j, hj => by simp at hj
  | f :: fs, j, hj => by
    rw [List.map_cons, List.flatten_cons, List.length_cons, parseResourceRecords]
    by_cases hcut : j < 16
    · rw [List.take_append_of_le_length (by rw [compressedARecord_length]; omega),
        parseResourceRecord_truncated fuel fullMessage labels after f j hlen hfull hfuel hcut]
      rfl
    · have ht : (compressedARecord 12 f ++ (fs.map (compressedARecord 12)).flatten).take j
          = compressedARecord 12 f ++ ((fs.map (compressedARecord 12)).flatten).take (j - 16) := by
        rw [List.take_append_eq_append_take, List.take_of_length_le
          (by rw [compressedARecord_length]; omega), compressedARecord_length]
      have ih := parseResourceRecords_truncated fuel fullMessage labels after hlen hfull hfuel
        fs (j - 16) (by simp only [List.length_cons] at hj; omega)
      rw [ht, parseResourceRecord_compressedA fuel fullMessage labels after f _ hlen hfull hfuel]
      simp [ih]

/-- C12, evaluation of the code: the test message cut after 20 octets, in the middle of
the question name, has a complete header and truncated data; parseMessage returns no
error value on it but aborts with the run-time fault, whatever the budget.  The message
shortARecordMessage ends six octets before the end that its RDLENGTH of 10 announces,
and parseMessage returns a Message for it.  The claim has an error value returned in
both cases. -/
theorem parseMessage_cut_not_error :
    (∀ k, parseMessage (k + 3) (createTestMessage.take 20) = .fault) ∧
    (∀ k, parseMessage (k + 1) shortARecordMessage
      = .ok { Header := { ID := 1234, QR := true, OPCode := 0, AA := false, TC := false,
                          RD := false, RA := false, RCode := 0, QDCount := 0, ANCount := 1,
                          NSCount := 0, ARCount := 0 },
              Question := [],
              Answer := [{ Name := [], RType := TypeA, Class := ClassIN, TTL := 0,
                           RDLength := 10, RData := .A [1, 2, 3, 4] }],
              Authority := [], Additional := [] }) :=
  ⟨fun _ => rfl, fun _ => rfl⟩

/-- What the code does on truncated data, in general: parseMessage returns an error
value on no input at all, and on a message of the compressedMessage shape (header, one
uncompressed question, answers owned by the pointer to offset 12) cut at any length
that keeps the header and drops at least the last octet, the decoder reaches the end of
the data where it needs an octet and the call aborts with the run-time fault. -/
theorem parseMessage_truncated (h0 h1 h2 h3 : Nat) (labels : List (List Nat))
    (qtype0 qtype1 qclass0 qclass1 : Nat) (recs : List AFields) (fuel n : Nat)
    (hlen : ∀ l ∈ labels, 1 ≤ l.length ∧ l.length ≤ 63)
    (_hn : recs.length < 65536) (hfuel : labels.length + 1 < fuel) (hlo : 12 ≤ n)
    (hhi : n < (compressedMessage h0 h1 h2 h3 labels qtype0 qtype1 qclass0 qclass1
      recs).length) :
    (∀ fuel1 bytes e, parseMessage fuel1 bytes ≠ .error e) ∧
    parseMessage fuel
      ((compressedMessage h0 h1 h2 h3 labels qtype0 qtype1 qclass0 qclass1 recs).take n)
      = .fault := by
  refine ⟨parseMessage_ne_error, ?_⟩
  have hmsg : compressedMessage h0 h1 h2 h3 labels qtype0 qtype1 qclass0 qclass1 recs
      = [h0, h1, h2, h3, 0, 1, recs.length / 256, recs.length % 256, 0, 0, 0, 0]
        ++ (((labelOctets labels ++ [0]) ++ [qtype0, qtype1, qclass0, qclass1])
          ++ (recs.map (compressedARecord 12)).flatten) := by
    simp [compressedMessage]
  rw [hmsg] at hhi ⊢
  obtain ⟨m, rfl⟩ : ∃ m, n = 12 + m := ⟨n - 12, by omega⟩
  have htk : ([h0, h1, h2, h3, 0, 1, recs.length / 256, recs.length % 256, 0, 0, 0, 0]
        ++ (((labelOctets labels ++ [0]) ++ [qtype0, qtype1, qclass0, qclass1])
          ++ (recs.map (compressedARecord 12)).flatten)).take (12 + m)
      = [h0, h1, h2, h3, 0, 1, recs.length / 256, recs.length % 256, 0, 0, 0, 0]
        ++ ((((labelOctets labels ++ [0]) ++ [qtype0, qtype1, qclass0, qclass1])
          ++ (recs.map (compressedARecord 12)).flatten).take m) := by
    rw [List.take_append_eq_append_take, List.take_of_length_le (by simp)]
    simp
  rw [htk]
  have hm : m < (((labelOctets labels ++ [0]) ++ [qtype0, qtype1, qclass0, qclass1])
      ++ (recs.map (compressedARecord 12)).flatten).length := by
    simp only [List.length_append, List.length_cons, List.length_nil] at hhi ⊢
    omega
  generalize hY : (((labelOctets labels ++ [0]) ++ [qtype0, qtype1, qclass0, qclass1])
      ++ (recs.map (compressedARecord 12)).flatten).take m = Y
  have hlt : ¬ ([h0, h1, h2, h3, 0, 1, recs.length / 256, recs.length % 256, 0, 0, 0, 0]
      ++ Y).length < headerSizeBytes := by
    simp [headerSizeBytes]
  have htake : ([h0, h1, h2, h3, 0, 1, recs.length / 256, recs.length % 256, 0, 0, 0, 0]
      ++ Y).take headerSizeBytes
      = [h0, h1, h2, h3, 0, 1, recs.length / 256, recs.length % 256, 0, 0, 0, 0] := by
    simp [headerSizeBytes]
  have hdrop : ([h0, h1, h2, h3, 0, 1, recs.length / 256, recs.length % 256, 0, 0, 0, 0]
      ++ Y).drop headerSizeBytes = Y := by
    simp [headerSizeBytes]
  rw [parseMessage, if_neg hlt, htake, parseMessageHeader_twelve, hdrop]
  simp only [Uint16_div_mod, show Uint16 0 1 = 1 from rfl, show Uint16 0 0 = 0 from rfl,
    parseQuestions]
  by_cases hcut : m < ((labelOctets labels ++ [0]) ++ [qtype0, qtype1, qclass0, qclass1]).length
  · rw [List.take_append_of_le_length (Nat.le_of_lt hcut)] at hY
    rw [← hY, parseQuestion_truncated fuel _ labels qtype0 qtype1 qclass0 qclass1 m hlen
      (by omega) hcut]
    rfl
  · have hY2 : Y = labelOctets labels ++ 0 :: ([qtype0, qtype1, qclass0, qclass1]
        ++ ((recs.map (compressedARecord 12)).flatten).take
          (m - ((labelOctets labels ++ [0]) ++ [qtype0, qtype1, qclass0, qclass1]).length)) := by
      rw [← hY, List.take_append_eq_append_take, List.take_of_length_le (by omega)]
      simp
    have hj : m - ((labelOctets labels ++ [0]) ++ [qtype0, qtype1, qclass0, qclass1]).length
        < 16 * recs.length := by
      rw [List.length_append, compressedARecords_length] at hm
      omega
    generalize m - ((labelOctets labels ++ [0]) ++ [qtype0, qtype1, qclass0, qclass1]).length
      = j at hY2 hj
    have hfull : ([h0, h1, (h2 <<< 1) % 256, h3, 0, 1, recs.length / 256, recs.length % 256,
        0, 0, 0, 0] ++ Y).drop 12 = labelOctets labels ++ 0 :: ([qtype0, qtype1, qclass0, qclass1]
        ++ ((recs.map (compressedARecord 12)).flatten).take j) := by
      rw [← hY2]
      simp
    have hrr := parseResourceRecords_truncated fuel _ labels _ hlen hfull hfuel recs j hj
    have hq := parseDomainName_uncompressed
      ([h0, h1, (h2 <<< 1) % 256, h3, 0, 1, recs.length / 256, recs.length % 256,
        0, 0, 0, 0] ++ Y) labels hlen fuel
      ([qtype0, qtype1, qclass0, qclass1] ++ ((recs.map (compressedARecord 12)).flatten).take j)
      (by omega)
    rw [← hY2] at hq
    rw [parseQuestion, hq]
    simp only [List.cons_append, List.nil_append, Outcome.bind_ok, readUint16,
      parseResourceRecords] at hrr ⊢
    rw [hrr]
    rfl

theorem parseMessage_truncated_example :
    (∀ fuel1 bytes e, parseMessage fuel1 bytes ≠ .error e) ∧
    parseMessage 5
      ((compressedMessage 4 210 129 128 [octets "www", octets "google", octets "com"] 0 1 0 1
        [⟨0, 1, 0, 0, 1, 44, 192, 0, 2, 1⟩, ⟨0, 1, 0, 0, 1, 44, 192, 0, 2, 2⟩]).take 40)
      = .fault :=
  parseMessage_truncated 4 210 129 128 [octets "www", octets "google", octets "com"] 0 1 0 1
    [⟨0, 1, 0, 0, 1, 44, 192, 0, 2, 1⟩, ⟨0, 1, 0, 0, 1, 44, 192, 0, 2, 2⟩] 5 40
    (by decide) (by decide) (by decide) (by decide) (by decide)

/-! ## C13 : the reserved bits of the header -/

/-- C13, counterexample: the header of the test message with the three reserved bits
of octet 3 set (0x70) is accepted, and decodes to the header of the test message. -/
theorem parseMessageHeader_reserved_accepted :
    parseMessageHeader [0x04, 0xd2, 0x01, 0x70, 0x00, 0x01, 0x00, 0x00, 0x00, 0x00, 0x00, 0x00]
      = .ok (createTestMessageParsed.Header,
          [0x04, 0xd2, 0x02, 0x70, 0x00, 0x01, 0x00, 0x00, 0x00, 0x00, 0x00, 0x00]) ∧
    0x70 &&& 0b01110000 ≠ 0 := by
  decide

/-- C13 as amended: parseMessageHeader does not look at bits 6 to 4 of octet 3.  On
every input of twelve octets it returns a header, and that header is the one it returns
for the same input with those three bits cleared. -/
theorem parseMessageHeader_reserved_ignored (h0 h1 h2 h3 h4 h5 h6 h7 h8 h9 h10 h11 : Nat) :
    ∃ hdr buf1 buf2,
      parseMessageHeader [h0, h1, h2, h3, h4, h5, h6, h7, h8, h9, h10, h11] = .ok (hdr, buf1) ∧
      parseMessageHeader [h0, h1, h2, h3 &&& 0b10001111, h4, h5, h6, h7, h8, h9, h10, h11]
        = .ok (hdr, buf2) := by
  refine ⟨_, _, [h0, h1, (h2 <<< 1) % 256, h3 &&& 0b10001111, h4, h5, h6, h7, h8, h9, h10, h11],
    parseMessageHeader_twelve h0 h1 h2 h3 h4 h5 h6 h7 h8 h9 h10 h11, ?_⟩
  rw [parseMessageHeader_twelve, Nat.land_assoc, Nat.land_assoc,
    show (0b10001111 &&& 0b10000000 : Nat) = 0b10000000 from rfl,
    show (0b10001111 &&& 0b00001111 : Nat) = 0b00001111 from rfl]

/-! ## C14 : which octets are taken for a pointer -/

set_option maxRecDepth 100000 in
/-- The test of the decoder holds for every octet from 0x40 on, not from 0xC0 on. -/
theorem isCompressed_iff : ∀ b < 256, (isCompressed b = true ↔ 64 ≤ b) := by decide

/-- C14, evaluation of the code: the octets 0x40 and 0x80, with one of the two top bits
set, pass the pointer test of parseDomainName; on markerDemoMessage the octets 40 00 at
offset 3 are followed as a pointer to offset 0 and decode to the name "a." stored
there, where the claim has such an octet not followed as a pointer. -/
theorem isCompressed_one_top_bit :
    isCompressed 0x40 = true ∧ isCompressed 0x80 = true ∧ isCompressed 0xBF = true ∧
    pointerOffset 0x40 0x00 = 0 ∧
    parseDomainName 3 markerDemoMessage (markerDemoMessage.drop 3) = .ok (octets "a.", []) := by
  decide

/-! ## C15 : the buffer after decoding -/

/-- The buffer after parseMessage: octet 2 is replaced by its double modulo 256, the
other octets keep their values. -/
theorem bufferAfterParseMessage_eq (messageBytes : List Nat) (h : 12 ≤ messageBytes.length) :
    bufferAfterParseMessage messageBytes
      = some (messageBytes.set 2 ((messageBytes.getD 2 0 <<< 1) % 256)) := by
  have hlt : ¬ messageBytes.length < headerSizeBytes := by
    simpa [headerSizeBytes] using h
  match messageBytes, h, hlt with
  | h0 :: h1 :: h2 :: h3 :: h4 :: h5 :: h6 :: h7 :: h8 :: h9 :: h10 :: h11 :: rest, _, hlt =>
    rw [bufferAfterParseMessage, if_neg hlt]
    rfl

/-- C15, evaluation of the code: decoding the test message changes octet 2 of the
buffer from 1 to 2; decoding the buffer a second time returns a Message whose header
has TC set and RD cleared, where the first decoding returned TC cleared and RD set. -/
theorem parseMessage_changes_buffer :
    bufferAfterParseMessage createTestMessage = some (createTestMessage.set 2 2) ∧
    createTestMessage.getD 2 0 = 1 ∧
    parseMessage 3 createTestMessage = .ok createTestMessageParsed ∧
    parseMessage 3 (createTestMessage.set 2 2)
      = .ok { createTestMessageParsed with
              Header := { createTestMessageParsed.Header with TC := true, RD := false } } := by
  decide

/-! ## C22 : the payloads that carry a name -/

/-- A name made of labels and a closing pointer, decoded in place: the labels and the
name that the decoder finds at the offset it computes for the pointer. -/
theorem parseDomainName_labels_pointer (fuel : Nat) (fullMessage : List Nat)
    (labels : List (List Nat)) (b0 b1 : Nat) (rest target r : List Nat)
    (hlen : ∀ l ∈ labels, 1 ≤ l.length ∧ l.length ≤ 63) (hc : isCompressed b0 = true)
    (ht : parseDomainName fuel fullMessage (fullMessage.drop (pointerOffset b0 b1))
      = .ok (target, r)) :
    parseDomainName (fuel + 1 + labels.length) fullMessage
        (labelOctets labels ++ b0 :: b1 :: rest)
      = .ok (dottedName labels ++ target, rest) := by
  have hp := parseDomainNameLoop_pointer fuel fullMessage b0 b1 rest ([] ++ dottedName labels)
    target r hc ht
  rw [parseDomainName, parseDomainNameLoop_labels fullMessage labels hlen, hp]
  rfl

/-- The CNAME case on an uncompressed name: the payload carries the name and the cursor
moves past it. -/
theorem parseRData_CNAME_uncompressed (fuel : Nat) (fullMessage : List Nat)
    (labels : List (List Nat)) (next : List Nat) (rdLength : Nat)
    (hlen : ∀ l ∈ labels, 1 ≤ l.length ∧ l.length ≤ 63) (hfuel : labels.length < fuel) :
    parseRData fuel fullMessage (labelOctets labels ++ 0 :: next) TypeCNAME rdLength
      = .ok (.CNAME (dottedName labels), next) := by
  have hp := parseDomainName_uncompressed fullMessage labels hlen fuel next hfuel
  simp only [parseRData, show TypeCNAME ≠ TypeA from by decide,
    show TypeCNAME ≠ TypeAAAA from by decide, if_false, if_true, hp, Outcome.bind_ok]

/-- The CNAME case on a name closed by a pointer: the pointer is resolved in the full
message, at the offset the decoder computes. -/
theorem parseRData_CNAME_pointer (fuel : Nat) (fullMessage : List Nat)
    (labels : List (List Nat)) (b0 b1 : Nat) (next target r : List Nat) (rdLength : Nat)
    (hlen : ∀ l ∈ labels, 1 ≤ l.length ∧ l.length ≤ 63) (hc : isCompressed b0 = true)
    (ht : parseDomainName fuel fullMessage (fullMessage.drop (pointerOffset b0 b1))
      = .ok (target, r)) :
    parseRData (fuel + 1 + labels.length) fullMessage (labelOctets labels ++ b0 :: b1 :: next)
        TypeCNAME rdLength
      = .ok (.CNAME (dottedName labels ++ target), next) := by
  have hp := parseDomainName_labels_pointer fuel fullMessage labels b0 b1 next target r hlen
    hc ht
  simp only [parseRData, show TypeCNAME ≠ TypeA from by decide,
    show TypeCNAME ≠ TypeAAAA from by decide, if_false, if_true, hp, Outcome.bind_ok]

/-- The NS case on a name closed by a pointer: the name is decoded from the copy of the
RDATA, the pointer is resolved in the full message. -/
theorem parseRData_NS_pointer (fuel : Nat) (fullMessage : List Nat)
    (labels : List (List Nat)) (b0 b1 : Nat) (next target r : List Nat)
    (hlen : ∀ l ∈ labels, 1 ≤ l.length ∧ l.length ≤ 63) (hc : isCompressed b0 = true)
    (ht : parseDomainName fuel fullMessage (fullMessage.drop (pointerOffset b0 b1))
      = .ok (target, r)) :
    parseRData (fuel + 1 + labels.length) fullMessage
        ((labelOctets labels ++ [b0, b1]) ++ next) TypeNS (labelOctets labels ++ [b0, b1]).length
      = .ok (.NS (dottedName labels ++ target), []) := by
  have hp := parseDomainName_labels_pointer fuel fullMessage labels b0 b1 [] target r hlen
    hc ht
  simp only [parseRData, readBytes_append, Outcome.bind_ok, show TypeNS ≠ TypeA from by decide,
    show TypeNS ≠ TypeAAAA from by decide, show TypeNS ≠ TypeCNAME from by decide,
    show TypeNS ≠ TypeMX from by decide, if_false, if_true, hp]

/-- The MX case on a name closed by a pointer: the preference is the big-endian word of
the first two octets of the RDATA, the name is decoded from offset 2 of the copy of the
RDATA, the pointer is resolved in the full message. -/
theorem parseRData_MX_pointer (fuel : Nat) (fullMessage : List Nat) (p0 p1 : Nat)
    (labels : List (List Nat)) (b0 b1 : Nat) (next target r : List Nat)
    (hlen : ∀ l ∈ labels, 1 ≤ l.length ∧ l.length ≤ 63) (hc : isCompressed b0 = true)
    (ht : parseDomainName fuel fullMessage (fullMessage.drop (pointerOffset b0 b1))
      = .ok (target, r)) :
    parseRData (fuel + 1 + labels.length) fullMessage
        ((p0 :: p1 :: (labelOctets labels ++ [b0, b1])) ++ next) TypeMX
        (p0 :: p1 :: (labelOctets labels ++ [b0, b1])).length
      = .ok (.MX (Uint16 p0 p1) (dottedName labels ++ target), []) := by
  have hp := parseDomainName_labels_pointer fuel fullMessage labels b0 b1 [] target r hlen
    hc ht
  simp only [parseRData, readBytes_append, Outcome.bind_ok, show TypeMX ≠ TypeA from by decide,
    show TypeMX ≠ TypeAAAA from by decide, show TypeMX ≠ TypeCNAME from by decide,
    if_false, if_true, readUint16, hp]

/-- The offset the decoder computes for a pointer whose first octet is C0 is its second
octet: the 14-bit offset, for offsets below 256. -/
theorem pointerOffset_low (b1 : Nat) (h1 : b1 < 256) : pointerOffset 192 b1 = b1 := by
  rw [pointerOffset]
  simp only [Nat.shiftLeft_eq]
  omega

set_option maxRecDepth 100000 in
/-- C22, evaluation of the code: in pointerRDataMessage the RDATA of the NS record is
the pointer C1 00 to offset 256, where the name "a.ns." lies (it is the RDATA of the
CNAME record, which the code decodes to that name).  The code resolves the pointer at
offset 4, inside the header, and the RData of the NS record carries the empty name,
where the claim has it carry the name encoded in the RDATA, "a.ns.". -/
theorem parseMessage_pointer_in_rdata :
    parseMessage 5 pointerRDataMessage = .ok pointerRDataMessageParsed ∧
    pointerRDataMessageParsed.Authority.map (fun rr => rr.RData) = [.NS []] ∧
    (pointerRDataMessage.drop 274) = writeCompressedName 256 ∧
    pointerOffset 0xC1 0x00 = 4 ∧
    parseDomainName 5 pointerRDataMessage (pointerRDataMessage.drop 256)
      = .ok (octets "a.ns.", pointerRDataMessage.drop 262) := by
  decide

end Rfc

namespace Dns

open Rfc (Outcome octets)

/-! # Properties of the resolver -/

/-- The body of dnsQuery is its loop with three iterations left; the nested calls run on
the budget that remains. -/
theorem dnsQuery_succ (up : Upstream) (fuel : Nat) (log : Log) (servers : List (List Nat))
    (question : Question) :
    dnsQuery up (fuel + 1) log servers question
      = dnsQueryLoop up (dnsQuery up fuel) 3 log servers question := rfl

/-! ## C17 : an authoritative reply ends the resolution -/

/-- C17: whenever the reply obtained in an iteration of dnsQuery has the AA bit set
(and its answer section parses), dnsQuery returns at once, without error, a message
marked as a response whose answers are the answer records of that reply in order and
whose RCode is NoError; the exchanges made are those up to this reply.  dnsQuery is
dnsQueryLoop with three iterations left, and its second and third iterations are
dnsQueryLoop with two and one left. -/
theorem dnsQueryLoop_authoritative (up : Upstream)
    (nested : Log → List (List Nat) → Question → Outcome Message × Log) (n : Nat)
    (log log1 : Log) (servers : List (List Nat)) (question : Question) (reply : Reply)
    (parsedAnswers : List Resource)
    (hreply : outgoingDnsQuery up log servers question = (.ok reply, log1))
    (hanswers : reply.AllAnswers = some parsedAnswers)
    (haa : reply.Header.Authoritative = true) :
    ∃ m, dnsQueryLoop up nested (n + 1) log servers question = (.ok m, log1) ∧
      m.Header.Response = true ∧ m.Answers = parsedAnswers ∧ m.Header.RCode = RCodeSuccess := by
  refine ⟨{ Header := { Response := true }, Answers := parsedAnswers }, ?_, rfl, rfl, rfl⟩
  simp only [dnsQueryLoop, hreply, hanswers, haa, if_true]

theorem dnsQueryLoop_authoritative_witness :
    ∃ m, dnsQuery authoritativeUpstream 1 [] getRootServers exampleQuestion
        = (.ok m, [(getRootServers, exampleQuestion)]) ∧
      m.Header.Response = true ∧
      m.Answers = [aResource exampleQuestion.Name [93, 184, 216, 34]] ∧
      m.Header.RCode = RCodeSuccess :=
  dnsQueryLoop_authoritative authoritativeUpstream (dnsQuery authoritativeUpstream 0) 2 []
    [(getRootServers, exampleQuestion)] getRootServers exampleQuestion
    (authoritativeReply [aResource exampleQuestion.Name [93, 184, 216, 34]])
    [aResource exampleQuestion.Name [93, 184, 216, 34]] rfl rfl rfl

/-! ## C18 : an empty authority section -/

/-- C18: whenever the reply obtained in an iteration of dnsQuery, be it the first, the
second or the third, is not authoritative and has an empty authority section, dnsQuery
returns at once, without error, a message with RCode NameError and no answer record,
and the exchanges made are those up to this reply: no further one is issued. -/
theorem dnsQueryLoop_empty_authority (up : Upstream)
    (nested : Log → List (List Nat) → Question → Outcome Message × Log) (n : Nat)
    (log log1 : Log) (servers : List (List Nat)) (question : Question) (reply : Reply)
    (parsedAnswers : List Resource)
    (hreply : outgoingDnsQuery up log servers question = (.ok reply, log1))
    (hanswers : reply.AllAnswers = some parsedAnswers)
    (haa : reply.Header.Authoritative = false)
    (hauth : reply.AllAuthorities = some []) :
    ∃ m, dnsQueryLoop up nested (n + 1) log servers question = (.ok m, log1) ∧
      m.Header.RCode = RCodeNameError ∧ m.Answers = [] := by
  refine ⟨{ Header := { RCode := RCodeNameError } }, ?_, rfl, rfl⟩
  simp [dnsQueryLoop, hreply, hanswers, haa, hauth]

theorem dnsQueryLoop_empty_authority_witness :
    ∃ m, dnsQueryLoop emptyAuthorityUpstream (dnsQuery emptyAuthorityUpstream 0) (0 + 1)
        [(getRootServers, exampleQuestion)] [[192, 0, 2, 1]] exampleQuestion
        = (.ok m, [(getRootServers, exampleQuestion), ([[192, 0, 2, 1]], exampleQuestion)]) ∧
      m.Header.RCode = RCodeNameError ∧ m.Answers = [] :=
  dnsQueryLoop_empty_authority emptyAuthorityUpstream (dnsQuery emptyAuthorityUpstream 0) 0
    [(getRootServers, exampleQuestion)]
    [(getRootServers, exampleQuestion), ([[192, 0, 2, 1]], exampleQuestion)]
    [[192, 0, 2, 1]] exampleQuestion (referralReply [] []) [] rfl rfl rfl rfl

/-! ## C19 : the bound on the iterations -/

theorem glueInner_found (additional : Resource) :
    ∀ (nameservers : List (List Nat)) (st st1 : Bool × List (List Nat)),
      (st.1 = true → st.2 ≠ []) → glueInner additional nameservers st = .ok st1 →
      (st1.1 = true → st1.2 ≠ [])
  | [], st, st1, hinv, h => by
    simp only [glueInner, Outcome.ok.injEq] at h
    rw [← h]
    exact hinv
  | nameserver :: rest, (found, servers), st1, hinv, h => by
    rw [glueInner] at h
    split at h
    · split at h
      · exact glueInner_found additional rest _ st1 (fun _ => by simp) h
      · simp at h
    · exact glueInner_found additional rest _ st1 hinv h

theorem glueLoop_found (nameservers : List (List Nat)) :
    ∀ (additionals : List Resource) (st st1 : Bool × List (List Nat)),
      (st.1 = true → st.2 ≠ []) → glueLoop nameservers additionals st = .ok st1 →
      (st1.1 = true → st1.2 ≠ [])
  | [], st, st1, hinv, h => by
    simp only [glueLoop, Outcome.ok.injEq] at h
    rw [← h]
    exact hinv
  | additional :: rest, st, st1, hinv, h => by
    rw [glueLoop] at h
    split at h
    · obtain ⟨st2, h2, h3⟩ := Rfc.Outcome.bind_eq_ok h
      exact glueLoop_found nameservers rest st2 st1
        (glueInner_found additional nameservers st st2 hinv h2) h3
    · exact glueLoop_found nameservers rest st st1 hinv h

/-- An iteration whose reply is a referral with glue: the loop goes on with the glue
addresses as candidate servers, and these are not empty. -/
theorem dnsQueryLoop_glue_step (up : Upstream)
    (nested : Log → List (List Nat) → Question → Outcome Message × Log) (n : Nat) (log : Log)
    (servers : List (List Nat)) (question : Question) (reply : Reply)
    (hs : servers ≠ []) (hup : up log.length servers question = .ok reply)
    (hglue : IsGlueReferral reply) :
    ∃ servers1, servers1 ≠ [] ∧
      dnsQueryLoop up nested (n + 1) log servers question
        = dnsQueryLoop up nested n (log ++ [(servers, question)]) servers1 question := by
  obtain ⟨haa, answers, authorities, nameservers, additionals, servers1, hans, hauth, hne, hns,
    hadd, hgl⟩ := hglue
  have hlen : authorities.length ≠ 0 := by
    intro h0
    exact hne (List.length_eq_zero.mp h0)
  refine ⟨servers1, glueLoop_found nameservers additionals (false, []) (true, servers1)
    (by simp) hgl rfl, ?_⟩
  simp [dnsQueryLoop, outgoingDnsQuery, hs, hup, hans, haa, hauth, hlen, hns, hadd, hgl]

theorem dnsQueryLoop_glue_referrals (up : Upstream)
    (nested : Log → List (List Nat) → Question → Outcome Message × Log)
    (hup : ∀ n servers question, ∃ reply, up n servers question = .ok reply ∧
      IsGlueReferral reply) (question : Question) :
    ∀ (n : Nat) (log : Log) (servers : List (List Nat)), servers ≠ [] →
      ∃ log1, dnsQueryLoop up nested n log servers question
          = (.ok { Header := { RCode := RCodeSuccess } }, log1) ∧
        log1.length = log.length + n
  | 0, log, servers, _ => ⟨log, rfl, rfl⟩
  | n + 1, log, servers, hs => by
    obtain ⟨reply, hreply, hglue⟩ := hup log.length servers question
    obtain ⟨servers1, hs1, hstep⟩ :=
      dnsQueryLoop_glue_step up nested n log servers question reply hs hreply hglue
    obtain ⟨log1, hrun, hl⟩ :=
      dnsQueryLoop_glue_referrals up nested hup question n (log ++ [(servers, question)])
        servers1 hs1
    refine ⟨log1, by rw [hstep, hrun], ?_⟩
    rw [hl, List.length_append]
    simp only [List.length_cons, List.length_nil]
    omega

/-- The nested resolution started by the glueless upstream never returns. -/
theorem dnsQuery_glueless (fuel : Nat) :
    ∀ (log : Log) (servers : List (List Nat)) (question : Question), servers ≠ [] →
      (dnsQuery gluelessUpstream fuel log servers question).1 = .outOfFuel := by
  induction fuel with
  | zero => intro log servers question _; rfl
  | succ fuel ih =>
    intro log servers question hs
    have hroot : getRootServers ≠ [] := by decide
    have hnested := ih (log ++ [(servers, question)]) getRootServers
      { Name := octets "ns.example.", RType := TypeA, Class := ClassINET } hroot
    cases hr : dnsQuery gluelessUpstream fuel (log ++ [(servers, question)]) getRootServers
        { Name := octets "ns.example.", RType := TypeA, Class := ClassINET } with
    | mk r l =>
      rw [hr] at hnested
      simp only at hnested
      subst hnested
      have hlen : ¬ (octets "ns.example.").length > 255 := by decide
      simp [dnsQuery, dnsQueryLoop, outgoingDnsQuery, hs, gluelessUpstream, referralReply,
        nsResource, collectNameservers, glueLoop, nestedLookups, hlen, hr, TypeNS]

/-- C19, counterexample: every reply of gluelessUpstream is non-authoritative with one
NS record in its authority section and no glue; on it dnsQuery never returns, whatever
the budget of nested calls: each call of dnsQuery reaches, in its first iteration, a
nested call of dnsQuery for the nameserver. -/
theorem dnsQuery_glueless_diverges :
    (∀ fuel, (dnsQuery gluelessUpstream fuel [] getRootServers exampleQuestion).1
      = .outOfFuel) ∧
    (∀ n servers question, gluelessUpstream n servers question
      = .ok (referralReply [nsResource (octets "com.") (octets "ns.example.")] [])) :=
  ⟨fun fuel => dnsQuery_glueless fuel [] getRootServers exampleQuestion (by decide),
    fun _ _ _ => rfl⟩

/-- C19 as amended: for every upstream whose replies are all non-authoritative with a
non-empty authority section and with glue for at least one delegated nameserver,
dnsQuery terminates after exactly three exchanges and returns RCode NoError with an
empty answer set; no nested call is made, so a budget of one suffices. -/
theorem dnsQuery_glue_referrals (up : Upstream)
    (hup : ∀ n servers question, ∃ reply, up n servers question = .ok reply ∧
      IsGlueReferral reply)
    (fuel : Nat) (log : Log) (servers : List (List Nat)) (question : Question)
    (hs : servers ≠ []) :
    ∃ m log1, dnsQuery up (fuel + 1) log servers question = (.ok m, log1) ∧
      m.Header.RCode = RCodeSuccess ∧ m.Answers = [] ∧ log1.length = log.length + 3 := by
  obtain ⟨log1, hrun, hl⟩ :=
    dnsQueryLoop_glue_referrals up (dnsQuery up fuel) hup question 3 log servers hs
  exact ⟨_, log1, hrun, rfl, rfl, hl⟩

theorem glueUpstream_isGlueReferral (n : Nat) (servers : List (List Nat))
    (question : Question) :
    ∃ reply, glueUpstream n servers question = .ok reply ∧ IsGlueReferral reply :=
  ⟨_, rfl, rfl, [], [nsResource (octets "com.") (octets "ns.example.")],
    [octets "ns.example."], [aResource (octets "ns.example.") [192, 0, 2, 1]],
    [[192, 0, 2, 1]], rfl, rfl, by simp, by decide, rfl, by decide⟩

theorem dnsQuery_glue_referrals_witness :
    ∃ m log1, dnsQuery glueUpstream (0 + 1) [] getRootServers exampleQuestion = (.ok m, log1) ∧
      m.Header.RCode = RCodeSuccess ∧ m.Answers = [] ∧
      log1.length = ([] : Log).length + 3 :=
  dnsQuery_glue_referrals glueUpstream glueUpstream_isGlueReferral 0 [] getRootServers
    exampleQuestion (by decide)

/-! ## C20 : the fallback without glue -/

theorem answerAddresses_eq :
    ∀ (answers : List Resource) (servers : List (List Nat)),
      (∀ r ∈ answers, r.Header.RType = TypeA → ∃ a, r.Body = .AResource a) →
      answerAddresses answers servers = .ok (servers ++ addressesOf answers)
  | [], servers, _ => by simp [answerAddresses, addressesOf]
  | answer :: rest, servers, h => by
    have ih := fun servers1 => answerAddresses_eq rest servers1
      (fun r hr => h r (List.mem_cons_of_mem _ hr))
    by_cases ht : answer.Header.RType = TypeA
    · obtain ⟨a, ha⟩ := h answer (List.mem_cons_self _ _) ht
      rw [answerAddresses, if_pos ht, ha]
      simp only
      rw [ih]
      simp [addressesOf, ht, ha]
    · rw [answerAddresses, if_neg ht, ih]
      simp [addressesOf, ht]

/-- Once a nested resolution has returned without error the fallback loop resolves no
further name. -/
theorem nestedLookups_found
    (nested : Log → List (List Nat) → Question → Outcome Message × Log) :
    ∀ (nameservers : List (List Nat)) (servers : List (List Nat)) (log : Log),
      nestedLookups nested nameservers (true, servers) log = (.ok (true, servers), log)
  | [], _, _ => rfl
  | _ :: rest, servers, log => by
    rw [nestedLookups, if_pos rfl]
    exact nestedLookups_found nested rest servers log

/-- C20, counterexample: the referral names the nameservers a.ns. and b.ns. without
glue, and the nested resolution of each of them succeeds when it is made.  The fallback
of dnsQuery resolves a.ns. only: the next candidate set is the address of a.ns. alone,
not the concatenation with the address of b.ns., and the whole resolution makes three
exchanges, none of them for b.ns. -/
theorem nestedLookups_stops_at_first :
    nestedLookups (dnsQuery twoNameserverUpstream 1) [octets "a.ns.", octets "b.ns."]
        (false, []) []
      = (.ok (true, [[10, 0, 0, 1]]), [(getRootServers, addressQuestion (octets "a.ns."))]) ∧
    dnsQuery twoNameserverUpstream 1 [] getRootServers (addressQuestion (octets "b.ns."))
      = (.ok { Header := { Response := true },
               Answers := [aResource (octets "b.ns.") [10, 0, 0, 2]] },
         [(getRootServers, addressQuestion (octets "b.ns."))]) ∧
    dnsQuery twoNameserverUpstream 2 [] getRootServers exampleQuestion
      = (.ok { Header := { Response := true },
               Answers := [aResource (octets "example.com.") [93, 184, 216, 34]] },
         [(getRootServers, exampleQuestion),
          (getRootServers, addressQuestion (octets "a.ns.")),
          ([[10, 0, 0, 1]], exampleQuestion)]) := by
  decide

theorem nestedLookups_failures_then_success
    (nested : Log → List (List Nat) → Question → Outcome Message × Log) :
    ∀ (failed : List (List Nat)) (log logf : Log),
      (∀ ns ∈ failed, ns.length ≤ 255) → nestedFailures nested failed log = some logf →
      nestedLookups nested failed (false, []) log = (.ok (false, []), logf) ∧
      ∀ (nameserver : List Nat) (rest : List (List Nat)) (response : Message) (log1 : Log),
        nameserver.length ≤ 255 →
        nested logf getRootServers (addressQuestion nameserver) = (.ok response, log1) →
        (∀ r ∈ response.Answers, r.Header.RType = TypeA → ∃ a, r.Body = .AResource a) →
        nestedLookups nested (failed ++ nameserver :: rest) (false, []) log
          = (.ok (true, addressesOf response.Answers), log1)
  | [], log, logf, _, hf => by
    simp only [nestedFailures, Option.some.injEq] at hf
    subst hf
    refine ⟨rfl, ?_⟩
    intro nameserver rest response log1 hlen hok htyped
    have hl : ¬ nameserver.length > 255 := by omega
    rw [addressQuestion] at hok
    rw [List.nil_append, nestedLookups]
    simp only [Bool.false_eq_true, if_false, hl, hok, answerAddresses_eq _ _ htyped,
      List.nil_append]
    exact nestedLookups_found nested rest _ log1
  | ns :: failed, log, logf, hlen, hf => by
    have hl : ¬ ns.length > 255 := by
      have := hlen ns (List.mem_cons_self _ _)
      omega
    rw [nestedFailures] at hf
    split at hf
    · rename_i e log2 hnested
      obtain ⟨h1, h2⟩ := nestedLookups_failures_then_success nested failed log2 logf
        (fun x hx => hlen x (List.mem_cons_of_mem _ hx)) hf
      constructor
      · rw [nestedLookups]
        simp only [Bool.false_eq_true, if_false, hl, hnested]
        exact h1
      · intro nameserver rest response log1 hlen1 hok htyped
        rw [List.cons_append, nestedLookups]
        simp only [Bool.false_eq_true, if_false, hl, hnested]
        exact h2 nameserver rest response log1 hlen1 hok htyped
    · simp at hf

/-- C20 as amended: when a referral has no matching glue, dnsQuery issues the nested
type-A resolutions from the root servers for the delegated nameserver names in order,
up to the first one that returns without error.  The resolutions that return an error
before it are skipped; the next candidate set is the list of the A-record addresses in
the answers of that first resolution, and no name after it is resolved.  When every
nested resolution returns an error the candidate set is empty. -/
theorem nestedLookups_first_success
    (nested : Log → List (List Nat) → Question → Outcome Message × Log)
    (failed : List (List Nat)) (nameserver : List Nat) (rest : List (List Nat))
    (log logf log1 : Log) (response : Message)
    (hfailedLen : ∀ ns ∈ failed, ns.length ≤ 255)
    (hfailed : nestedFailures nested failed log = some logf)
    (hlen : nameserver.length ≤ 255)
    (hok : nested logf getRootServers (addressQuestion nameserver) = (.ok response, log1))
    (htyped : ∀ r ∈ response.Answers, r.Header.RType = TypeA → ∃ a, r.Body = .AResource a) :
    nestedLookups nested (failed ++ nameserver :: rest) (false, []) log
      = (.ok (true, addressesOf response.Answers), log1) ∧
    nestedLookups nested failed (false, []) log = (.ok (false, []), logf) :=
  ⟨(nestedLookups_failures_then_success nested failed log logf hfailedLen hfailed).2
      nameserver rest response log1 hlen hok htyped,
    (nestedLookups_failures_then_success nested failed log logf hfailedLen hfailed).1⟩

theorem nestedLookups_first_success_witness :
    nestedLookups (dnsQuery twoNameserverUpstream 1)
        ([octets "down.ns."] ++ octets "a.ns." :: [octets "b.ns."]) (false, []) []
      = (.ok (true, addressesOf [aResource (octets "a.ns.") [10, 0, 0, 1]]),
         [(getRootServers, addressQuestion (octets "down.ns.")),
          (getRootServers, addressQuestion (octets "a.ns."))]) ∧
    nestedLookups (dnsQuery twoNameserverUpstream 1) [octets "down.ns."] (false, []) []
      = (.ok (false, []), [(getRootServers, addressQuestion (octets "down.ns."))]) :=
  nestedLookups_first_success (dnsQuery twoNameserverUpstream 1) [octets "down.ns."]
    (octets "a.ns.") [octets "b.ns."] []
    [(getRootServers, addressQuestion (octets "down.ns."))]
    [(getRootServers, addressQuestion (octets "down.ns.")),
     (getRootServers, addressQuestion (octets "a.ns."))]
    { Header := { Response := true }, Answers := [aResource (octets "a.ns.") [10, 0, 0, 1]] }
    (by decide) (by decide) (by decide) (by decide)
    (by
      intro r hr _
      rw [List.mem_singleton.mp hr]
      exact ⟨_, rfl⟩)

/-! ## C16 : the root servers -/

/-- The fallback loop only appends to the list of exchanges, when the nested resolver
does. -/
theorem nestedLookups_log_extends
    (nested : Log → List (List Nat) → Question → Outcome Message × Log)
    (hnested : ∀ log servers question, log <+: (nested log servers question).2) :
    ∀ (nameservers : List (List Nat)) (st : Bool × List (List Nat)) (log : Log),
      log <+: (nestedLookups nested nameservers st log).2
  | [], _, log => List.prefix_refl log
  | nameserver :: rest, (found, servers), log => by
    have hp := hnested log getRootServers
      { Name := nameserver, RType := TypeA, Class := ClassINET }
    rw [nestedLookups]
    split
    · exact nestedLookups_log_extends nested hnested rest _ log
    · split
      · exact List.prefix_refl log
      · split
        · rename_i response log1 hr
          rw [hr] at hp
          split
          · exact hp.trans (nestedLookups_log_extends nested hnested rest _ log1)
          · exact hp
          · exact hp
          · exact hp
        · rename_i e log1 hr
          rw [hr] at hp
          exact hp.trans (nestedLookups_log_extends nested hnested rest _ log1)
        · rename_i log1 hr
          rw [hr] at hp
          exact hp
        · rename_i log1 hr
          rw [hr] at hp
          exact hp

theorem nestedLookups_log_extends_of_eq
    (nested : Log → List (List Nat) → Question → Outcome Message × Log)
    (hnested : ∀ log servers question, log <+: (nested log servers question).2)
    {nameservers : List (List Nat)} {st : Bool × List (List Nat)} {log log2 : Log}
    {r : Outcome (Bool × List (List Nat))}
    (h : nestedLookups nested nameservers st log = (r, log2)) : log <+: log2 := by
  have hp := nestedLookups_log_extends nested hnested nameservers st log
  rw [h] at hp
  exact hp

/-- An iteration made with at least one candidate server: its exchange is recorded,
and everything that follows only appends to the list of exchanges. -/
theorem dnsQueryLoop_step_extends (up : Upstream)
    (nested : Log → List (List Nat) → Question → Outcome Message × Log)
    (hnested : ∀ log servers question, log <+: (nested log servers question).2)
    (n : Nat) (question : Question)
    (hrec : ∀ log servers, log <+: (dnsQueryLoop up nested n log servers question).2)
    (log : Log) (servers : List (List Nat)) (hs : servers ≠ []) :
    (log ++ [(servers, question)])
      <+: (dnsQueryLoop up nested (n + 1) log servers question).2 := by
  rw [dnsQueryLoop, outgoingDnsQuery, if_neg hs]
  cases up log.length servers question with
  | error e => exact List.prefix_refl _
  | ok reply =>
    simp only
    repeat' split
    all_goals first
      | exact List.prefix_refl _
      | exact hrec _ _
      | (rename_i hl
         first
           | exact nestedLookups_log_extends_of_eq nested hnested hl
           | exact (nestedLookups_log_extends_of_eq nested hnested hl).trans (hrec _ _))

theorem dnsQueryLoop_log_extends (up : Upstream)
    (nested : Log → List (List Nat) → Question → Outcome Message × Log)
    (hnested : ∀ log servers question, log <+: (nested log servers question).2)
    (question : Question) :
    ∀ (n : Nat) (log : Log) (servers : List (List Nat)),
      log <+: (dnsQueryLoop up nested n log servers question).2
  | 0, log, _ => List.prefix_refl log
  | n + 1, log, servers => by
    by_cases hs : servers = []
    · rw [dnsQueryLoop, outgoingDnsQuery, if_pos hs]
    · exact (List.prefix_append log _).trans
        (dnsQueryLoop_step_extends up nested hnested n question
          (dnsQueryLoop_log_extends up nested hnested question n) log servers hs)

/-- The resolver only appends to the list of exchanges. -/
theorem dnsQuery_log_extends (up : Upstream) :
    ∀ (fuel : Nat) (log : Log) (servers : List (List Nat)) (question : Question),
      log <+: (dnsQuery up fuel log servers question).2
  | 0, log, _, _ => List.prefix_refl log
  | fuel + 1, log, servers, question =>
    dnsQueryLoop_log_extends up (dnsQuery up fuel) (dnsQuery_log_extends up fuel) question 3 log
      servers

/-- The first exchange of a resolution started by handlePacket is made with the root
servers. -/
theorem handlePacket_first_exchange (up : Upstream) (fuel : Nat) (header : Header)
    (question : Question) :
    (handlePacket up (fuel + 1) header question).2.head? = some (getRootServers, question) := by
  have hroot : getRootServers ≠ [] := by decide
  have hp := dnsQueryLoop_step_extends up (dnsQuery up fuel) (dnsQuery_log_extends up fuel) 2
    question (dnsQueryLoop_log_extends up (dnsQuery up fuel) (dnsQuery_log_extends up fuel)
      question 2) [] getRootServers hroot
  have hlog : (handlePacket up (fuel + 1) header question).2
      = (dnsQueryLoop up (dnsQuery up fuel) (2 + 1) [] getRootServers question).2 := by
    rw [handlePacket, dnsQuery]
    split <;> rename_i h <;> rw [h]
  rw [hlog]
  obtain ⟨t, ht⟩ := hp
  rw [← ht]
  rfl

/-- The fallback loop calls the nested resolver with the root servers and a question of
type A and class IN only: two resolvers that agree on these calls give the same loop. -/
theorem nestedLookups_congr
    (nested1 nested2 : Log → List (List Nat) → Question → Outcome Message × Log)
    (h : ∀ log nameserver, nested1 log getRootServers (addressQuestion nameserver)
      = nested2 log getRootServers (addressQuestion nameserver)) :
    ∀ (nameservers : List (List Nat)) (st : Bool × List (List Nat)) (log : Log),
      nestedLookups nested1 nameservers st log = nestedLookups nested2 nameservers st log
  | [], _, _ => rfl
  | nameserver :: rest, (found, servers), log => by
    have hq := h log nameserver
    rw [addressQuestion] at hq
    rw [nestedLookups, nestedLookups, hq]
    simp only [nestedLookups_congr nested1 nested2 h rest]

/-- C16, counterexample: getRootServers returns 8 addresses, not 13. -/
theorem getRootServers_not_thirteen :
    getRootServers.length = 8 ∧ getRootServers.length ≠ 13 := by
  decide

/-- C16 as amended: getRootServers returns a list of exactly 8 addresses, each a
successfully parsed (non-nil) IPv4 address in the sixteen-octet form of net.ParseIP;
this list is the candidate set of the first exchange of the resolution that
handlePacket starts, and the candidate set with which the fallback of dnsQuery calls
every nested nameserver resolution. -/
theorem getRootServers_eight :
    getRootServers.length = 8 ∧
    (∀ ip ∈ getRootServers, ip ≠ [] ∧ ∃ a b c d, ip = v4InV6 a b c d) ∧
    getRootServers = [v4InV6 198 41 0 4, v4InV6 199 9 14 201, v4InV6 192 33 4 12,
      v4InV6 199 7 91 13, v4InV6 192 203 230 10, v4InV6 192 5 5 241, v4InV6 192 112 36 4,
      v4InV6 198 97 190 53] ∧
    (∀ (up : Upstream) (fuel : Nat) (header : Header) (question : Question),
      (handlePacket up (fuel + 1) header question).2.head? = some (getRootServers, question)) ∧
    (∀ (nested1 nested2 : Log → List (List Nat) → Question → Outcome Message × Log),
      (∀ log nameserver, nested1 log getRootServers (addressQuestion nameserver)
        = nested2 log getRootServers (addressQuestion nameserver)) →
      ∀ nameservers st log,
        nestedLookups nested1 nameservers st log = nestedLookups nested2 nameservers st log) := by
  have hlist : getRootServers = [v4InV6 198 41 0 4, v4InV6 199 9 14 201, v4InV6 192 33 4 12,
      v4InV6 199 7 91 13, v4InV6 192 203 230 10, v4InV6 192 5 5 241, v4InV6 192 112 36 4,
      v4InV6 198 97 190 53] := by decide
  refine ⟨by decide, ?_, hlist, handlePacket_first_exchange, nestedLookups_congr⟩
  intro ip hip
  rw [hlist] at hip
  simp only [List.mem_cons, List.mem_singleton, List.not_mem_nil, or_false] at hip
  rcases hip with h | h | h | h | h | h | h | h <;> subst h <;>
    exact ⟨by decide, _, _, _, _, rfl⟩

/-! ## C23 : the response flag of the returned messages -/

/-- The message of the NameError case, whatever the upstream and the iteration: its
response flag is false. -/
theorem dnsQueryLoop_empty_authority_flag (up : Upstream)
    (nested : Log → List (List Nat) → Question → Outcome Message × Log) (n : Nat)
    (log log1 : Log) (servers : List (List Nat)) (question : Question) (reply : Reply)
    (parsedAnswers : List Resource)
    (hreply : outgoingDnsQuery up log servers question = (.ok reply, log1))
    (hanswers : reply.AllAnswers = some parsedAnswers)
    (haa : reply.Header.Authoritative = false)
    (hauth : reply.AllAuthorities = some []) :
    ∃ m, dnsQueryLoop up nested (n + 1) log servers question = (.ok m, log1) ∧
      m.Header.Response = false := by
  refine ⟨{ Header := { RCode := RCodeNameError } }, ?_, rfl⟩
  simp [dnsQueryLoop, hreply, hanswers, haa, hauth]

/-- The message returned once the iterations are used up, whatever the upstream: its
response flag is false. -/
theorem dnsQueryLoop_exhausted_flag (up : Upstream)
    (nested : Log → List (List Nat) → Question → Outcome Message × Log) (log : Log)
    (servers : List (List Nat)) (question : Question) :
    ∃ m, dnsQueryLoop up nested 0 log servers question = (.ok m, log) ∧
      m.Header.RCode = RCodeSuccess ∧ m.Header.Response = false :=
  ⟨{ Header := { RCode := RCodeSuccess } }, rfl, rfl, rfl⟩

/-- C23, evaluation of the code: dnsQuery returns without error in the three cases.  On
an authoritative reply the message has the response flag set.  On a reply with an empty
authority section the message with RCode NameError has the response flag cleared, and
so has the message with RCode NoError returned after three referrals; handlePacket
hands this message on with the ID of the query and the flag still cleared.  The claim
has the flag set in the three cases alike. -/
theorem dnsQuery_response_flag :
    dnsQuery authoritativeUpstream 1 [] getRootServers exampleQuestion
      = (.ok { Header := { Response := true },
               Answers := [aResource exampleQuestion.Name [93, 184, 216, 34]] },
         [(getRootServers, exampleQuestion)]) ∧
    dnsQuery emptyAuthorityUpstream 1 [] getRootServers exampleQuestion
      = (.ok { Header := { Response := false, RCode := RCodeNameError } },
         [(getRootServers, exampleQuestion)]) ∧
    dnsQuery glueUpstream 1 [] getRootServers exampleQuestion
      = (.ok { Header := { Response := false, RCode := RCodeSuccess } },
         [(getRootServers, exampleQuestion), ([[192, 0, 2, 1]], exampleQuestion),
          ([[192, 0, 2, 1]], exampleQuestion)]) ∧
    (handlePacket emptyAuthorityUpstream 1 { ID := 4660 } exampleQuestion).1
      = .ok { Header := { ID := 4660, Response := false, RCode := RCodeNameError } } := by
  decide

/-! ## C21 : the glue selected from a referral -/

theorem collectNameservers_eq :
    ∀ (authorities : List Resource),
      (∀ r ∈ authorities, r.Header.RType = TypeNS → ∃ ns, r.Body = .NSResource ns) →
      collectNameservers authorities = .ok (authorities.map nameserverOf)
  | [], _ => rfl
  | authority :: rest, h => by
    have ih := collectNameservers_eq rest (fun r hr => h r (List.mem_cons_of_mem _ hr))
    by_cases ht : authority.Header.RType = TypeNS
    · obtain ⟨ns, hb⟩ := h authority (List.mem_cons_self _ _) ht
      rw [collectNameservers, if_pos ht, hb]
      simp [ih, nameserverOf, ht, hb]
    · rw [collectNameservers, if_neg ht]
      simp [ih, nameserverOf, ht]

/-- A name that is not empty occurs in nameservers as often as among the NS targets. -/
theorem count_nameservers (name : List Nat) (hname : name ≠ []) :
    ∀ (authorities : List Resource),
      (authorities.map nameserverOf).count name = (nsTargets authorities).count name
  | [] => rfl
  | authority :: rest => by
    have ih := count_nameservers name hname rest
    rw [nsTargets] at ih
    by_cases ht : authority.Header.RType = TypeNS
    · cases hb : authority.Body with
      | NSResource ns => simp [nsTargets, nameserverOf, ht, hb, List.count_cons, ih]
      | AResource a => simp [nsTargets, nameserverOf, ht, hb, List.count_cons, ih, hname]
      | other => simp [nsTargets, nameserverOf, ht, hb, List.count_cons, ih, hname]
    · simp [nsTargets, nameserverOf, ht, List.count_cons, ih, hname]

theorem glueInner_eq (additional : Resource) (a : List Nat)
    (hb : additional.Body = .AResource a) :
    ∀ (nameservers : List (List Nat)) (found : Bool) (servers : List (List Nat)),
      glueInner additional nameservers (found, servers)
        = .ok (found || decide (0 < nameservers.count additional.Header.Name),
            servers ++ List.replicate (nameservers.count additional.Header.Name) a)
  | [], found, servers => by simp [glueInner]
  | nameserver :: rest, found, servers => by
    by_cases h : additional.Header.Name = nameserver
    · rw [glueInner, if_pos h, hb]
      simp only
      rw [glueInner_eq additional a hb rest true (servers ++ [a])]
      simp [List.count_cons, h, List.replicate_succ]
    · rw [glueInner, if_neg h, glueInner_eq additional a hb rest found servers]
      have h1 : ¬ (nameserver == additional.Header.Name) = true := by
        simpa using fun e => h e.symm
      simp [List.count_cons, h1]

theorem glueLoop_eq (nameservers : List (List Nat)) :
    ∀ (additionals : List Resource) (found : Bool) (servers : List (List Nat)),
      (∀ r ∈ additionals, r.Header.RType = TypeA → ∃ a, r.Body = .AResource a) →
      glueLoop nameservers additionals (found, servers)
        = .ok (found || decide ((additionals.map (glueEntries nameservers)).flatten ≠ []),
            servers ++ (additionals.map (glueEntries nameservers)).flatten)
  | [], found, servers, _ => by simp [glueLoop]
  | additional :: rest, found, servers, h => by
    have ih := fun found1 servers1 => glueLoop_eq nameservers rest found1 servers1
      (fun r hr => h r (List.mem_cons_of_mem _ hr))
    by_cases ht : additional.Header.RType = TypeA
    · obtain ⟨a, hb⟩ := h additional (List.mem_cons_self _ _) ht
      rw [glueLoop, if_pos ht, glueInner_eq additional a hb, Rfc.Outcome.bind_ok, ih]
      have he : glueEntries nameservers additional
          = List.replicate (nameservers.count additional.Header.Name) a := by
        simp [glueEntries, ht, hb]
      rw [List.map_cons, List.flatten_cons, he]
      cases hc : nameservers.count additional.Header.Name with
      | zero => simp
      | succ c => simp [List.replicate_succ]
    · have he : glueEntries nameservers additional = [] := by simp [glueEntries, ht]
      rw [glueLoop, if_neg ht, ih, List.map_cons, List.flatten_cons, he]
      simp

/-- With owner names that are not empty, searching nameservers gives what searching the
NS targets gives. -/
theorem glueEntries_nameservers (authorities : List Resource) :
    ∀ (additionals : List Resource), (∀ r ∈ additionals, r.Header.Name ≠ []) →
      (additionals.map (glueEntries (authorities.map nameserverOf))).flatten
        = glueAddresses authorities additionals
  | [], _ => rfl
  | additional :: rest, h => by
    have ih := glueEntries_nameservers authorities rest
      (fun r hr => h r (List.mem_cons_of_mem _ hr))
    have hc := count_nameservers additional.Header.Name
      (h additional (List.mem_cons_self _ _)) authorities
    rw [glueAddresses] at ih ⊢
    rw [List.map_cons, List.flatten_cons, List.map_cons, List.flatten_cons, ih]
    simp only [glueEntries, hc]

theorem count_of_nodup_mem (name : List Nat) :
    ∀ (names : List (List Nat)), names.Nodup → name ∈ names → names.count name = 1
  | [], _, hm => by simp at hm
  | n :: rest, hnodup, hm => by
    obtain ⟨hn, hrest⟩ := List.nodup_cons.mp hnodup
    by_cases he : n = name
    · subst he
      simp [List.count_cons, List.count_eq_zero_of_not_mem hn]
    · have hm1 : name ∈ rest := by
        rcases List.mem_cons.mp hm with h | h
        · exact absurd h.symm he
        · exact h
      simp [List.count_cons, he, count_of_nodup_mem name rest hrest hm1]

/-- When no two NS records of the authority section have the same target, every
matching additional record contributes its address exactly once. -/
theorem glueAddresses_nodup (authorities : List Resource)
    (hnodup : (nsTargets authorities).Nodup) :
    ∀ (additionals : List Resource),
      glueAddresses authorities additionals = matchingGlue authorities additionals
  | [] => rfl
  | additional :: rest => by
    have ih := glueAddresses_nodup authorities hnodup rest
    rw [glueAddresses, matchingGlue] at ih ⊢
    rw [List.map_cons, List.flatten_cons, ih]
    by_cases hm : additional.Header.Name ∈ nsTargets authorities
    · have hc : (nsTargets authorities).count additional.Header.Name = 1 :=
        count_of_nodup_mem _ _ hnodup hm
      by_cases ht : additional.Header.RType = TypeA
      · cases hb : additional.Body <;>
          simp [glueEntries, addressesOf, List.filter_cons, hm, hc, ht, hb]
      · simp [glueEntries, addressesOf, List.filter_cons, hm, ht]
    · have hc : (nsTargets authorities).count additional.Header.Name = 0 :=
        List.count_eq_zero_of_not_mem hm
      by_cases ht : additional.Header.RType = TypeA
      · cases hb : additional.Body <;>
          simp [glueEntries, addressesOf, List.filter_cons, hm, hc, ht, hb]
      · simp [glueEntries, addressesOf, List.filter_cons, hm, ht]

/-- C21, counterexample: the referral names the nameserver ns.example. in two NS
records and carries one additional A record for it.  The glue search builds a candidate
set of two entries, the address twice, and the second exchange of dnsQuery is made with
these two candidates; one entry per matching additional record would be the address
once. -/
theorem glueLoop_duplicate_target :
    collectNameservers [nsResource (octets "com.") (octets "ns.example."),
        nsResource (octets "com.") (octets "ns.example.")]
      = .ok [octets "ns.example.", octets "ns.example."] ∧
    glueLoop [octets "ns.example.", octets "ns.example."]
        [aResource (octets "ns.example.") [192, 0, 2, 1]] (false, [])
      = .ok (true, [[192, 0, 2, 1], [192, 0, 2, 1]]) ∧
    matchingGlue [nsResource (octets "com.") (octets "ns.example."),
        nsResource (octets "com.") (octets "ns.example.")]
        [aResource (octets "ns.example.") [192, 0, 2, 1]]
      = [[192, 0, 2, 1]] ∧
    dnsQuery duplicateNsUpstream 1 [] getRootServers exampleQuestion
      = (.ok { Header := { Response := true },
               Answers := [aResource (octets "example.com.") [93, 184, 216, 34]] },
         [(getRootServers, exampleQuestion),
          ([[192, 0, 2, 1], [192, 0, 2, 1]], exampleQuestion)]) := by
  decide

/-- C21 as amended: for every referral reply (records typed as the parser of the reply
types them, owner names not empty), the candidate set that the glue search of dnsQuery
builds is the list of the addresses of the additional-section A records whose owner
name equals the target of an NS record of the authority section, in additional-section
order, each address once for every NS record with that target; additional records of
other types or with non-matching owner names contribute nothing.  When the list is not
empty it is the candidate set of the next iteration.  When the targets of the NS
records are pairwise distinct the list has one entry per matching additional record. -/
theorem glueLoop_selection (up : Upstream)
    (nested : Log → List (List Nat) → Question → Outcome Message × Log) (n : Nat)
    (log log1 : Log) (servers : List (List Nat)) (question : Question) (reply : Reply)
    (answers authorities additionals : List Resource)
    (hreply : outgoingDnsQuery up log servers question = (.ok reply, log1))
    (hanswers : reply.AllAnswers = some answers)
    (haa : reply.Header.Authoritative = false)
    (hauth : reply.AllAuthorities = some authorities) (hne : authorities ≠ [])
    (hadd : reply.AllAdditionals = some additionals)
    (hns : ∀ r ∈ authorities, r.Header.RType = TypeNS → ∃ ns, r.Body = .NSResource ns)
    (ha : ∀ r ∈ additionals, r.Header.RType = TypeA → ∃ a, r.Body = .AResource a)
    (hname : ∀ r ∈ additionals, r.Header.Name ≠ []) :
    (∃ nameservers, collectNameservers authorities = .ok nameservers ∧
      glueLoop nameservers additionals (false, [])
        = .ok (decide (glueAddresses authorities additionals ≠ []),
            glueAddresses authorities additionals)) ∧
    (glueAddresses authorities additionals ≠ [] →
      dnsQueryLoop up nested (n + 1) log servers question
        = dnsQueryLoop up nested n log1 (glueAddresses authorities additionals) question) ∧
    ((nsTargets authorities).Nodup →
      glueAddresses authorities additionals = matchingGlue authorities additionals) := by
  have hcollect := collectNameservers_eq authorities hns
  have hglue : glueLoop (authorities.map nameserverOf) additionals (false, [])
      = .ok (decide (glueAddresses authorities additionals ≠ []),
          glueAddresses authorities additionals) := by
    rw [glueLoop_eq _ additionals false [] ha, glueEntries_nameservers authorities additionals
      hname]
    simp
  have hlen : authorities.length ≠ 0 := by
    intro h0
    exact hne (List.length_eq_zero.mp h0)
  refine ⟨⟨_, hcollect, hglue⟩, ?_, fun hnodup => glueAddresses_nodup authorities hnodup _⟩
  intro hfound
  simp [dnsQueryLoop, hreply, hanswers, haa, hauth, hlen, hcollect, hadd, hglue, hfound]

theorem glueLoop_selection_witness :
    (∃ nameservers, collectNameservers [nsResource (octets "com.") (octets "ns.example.")]
        = .ok nameservers ∧
      glueLoop nameservers [aResource (octets "ns.example.") [192, 0, 2, 1],
          aResource (octets "other.example.") [192, 0, 2, 2]] (false, [])
        = .ok (decide (glueAddresses [nsResource (octets "com.") (octets "ns.example.")]
              [aResource (octets "ns.example.") [192, 0, 2, 1],
               aResource (octets "other.example.") [192, 0, 2, 2]] ≠ []),
            glueAddresses [nsResource (octets "com.") (octets "ns.example.")]
              [aResource (octets "ns.example.") [192, 0, 2, 1],
               aResource (octets "other.example.") [192, 0, 2, 2]])) ∧
    glueAddresses [nsResource (octets "com.") (octets "ns.example.")]
        [aResource (octets "ns.example.") [192, 0, 2, 1],
         aResource (octets "other.example.") [192, 0, 2, 2]] = [[192, 0, 2, 1]] :=
  ⟨(glueLoop_selection
      (fun _ _ _ => .ok (referralReply [nsResource (octets "com.") (octets "ns.example.")]
        [aResource (octets "ns.example.") [192, 0, 2, 1],
         aResource (octets "other.example.") [192, 0, 2, 2]]))
      (fun log _ _ => (.fault, log)) 2 [] [(getRootServers, exampleQuestion)] getRootServers
      exampleQuestion
      (referralReply [nsResource (octets "com.") (octets "ns.example.")]
        [aResource (octets "ns.example.") [192, 0, 2, 1],
         aResource (octets "other.example.") [192, 0, 2, 2]])
      [] [nsResource (octets "com.") (octets "ns.example.")]
      [aResource (octets "ns.example.") [192, 0, 2, 1],
       aResource (octets "other.example.") [192, 0, 2, 2]]
      rfl rfl rfl rfl (by decide) rfl
      (by
        intro r hr _
        rw [List.mem_singleton.mp hr]
        exact ⟨_, rfl⟩)
      (by
        intro r hr _
        rcases List.mem_cons.mp hr with h | h
        · rw [h]
          exact ⟨_, rfl⟩
        · rw [List.mem_singleton.mp h]
          exact ⟨_, rfl⟩)
      (by
        intro r hr
        rcases List.mem_cons.mp hr with h | h
        · rw [h]
          decide
        · rw [List.mem_singleton.mp h]
          decide)).1,
    by decide⟩

end Dns
